import Mathlib

/-! # ReviveMii Patcher: a shallow embedding of `main.go`

The program is a command-line wrapper: it checks that `wine` is installed,
checks a remote version string, downloads and unzips a helper executable on
first run, lists the `.nds` files of the current directory, lets the user pick
one, runs the helper on it and moves the result to `./output.nds`.

Every function of `main.go` is embedded as a Lean function that passes a
`World` (the file system and the log of operations performed) explicitly.
The operating system, the network, the zip decoder, the subprocess and the
standard input are an `Env`: a record of outcomes that the program cannot
control.  Theorems quantify over every `Env` and every `World`.

Conventions of the model:

* a Go string is its list of bytes; a Go `error` is `Option Err`, with `none`
  for `nil`; the messages built by the program (`fmt.Errorf`, `fmt.Println`)
  are exact, the messages of operating-system errors are short stand-ins;
* a path names a file, a directory or nothing; `os.Stat` succeeds exactly when
  the path names something, which is how the program tests existence;
* an open file is identified with its path; `defer`red closes have no effect
  on the file system and are left out, the `defer`red `os.Remove` is applied
  where the function returns;
* every library call appends one `Op` to the log, and every function of
  `main.go` appends `Op.call` when it is entered, so that the log tells what a
  run did and in which order;
* a run of `main` yields the exit code of the process: 0 when `main` returns,
  1 after `os.Exit(1)`.
-/

namespace Patcher

/-! ## Strings -/

/-- A Go string is a sequence of bytes. -/
abbrev GoString := List Nat

/-- The bytes of a string literal of the program (all of them are ASCII). -/
def str (s : String) : GoString := s.toList.map Char.toNat

/-- The message of a Go `error` value. A Go `error` is `Option Err`, `none` being `nil`. -/
abbrev Err := GoString

/-- `fmt.Errorf(msg + "%v", err)`. -/
def fmt.Errorf (msg : String) (err : Err) : Err := str msg ++ err

/-- `strings.HasSuffix(s, suffix)`:
`len(s) >= len(suffix) && s[len(s)-len(suffix):] == suffix`. -/
def strings.HasSuffix (s suffix : GoString) : Bool :=
  decide (suffix.length ≤ s.length) && (s.drop (s.length - suffix.length) == suffix)

/-- `strings.Index(s, substr)`: the first position at which `substr` occurs in
`s`, searched from position `i` on; `-1` when there is none. -/
def strings.IndexFrom (substr : GoString) : GoString → Nat → Int
  | [], i => if substr = [] then (i : Int) else -1
  | c :: t, i =>
    if substr.isPrefixOf (c :: t) then (i : Int) else strings.IndexFrom substr t (i + 1)

/-- `strings.Index(s, substr)`. -/
def strings.Index (s substr : GoString) : Int := strings.IndexFrom substr s 0

/-- `strings.Contains(s, substr)`: `Index(s, substr) >= 0`. -/
def strings.Contains (s substr : GoString) : Bool := decide (0 ≤ strings.Index s substr)

/-! ## Constants of the program -/

def version : GoString := str "v0.0.1"
def versionCheckURL : GoString := str "https://theerrorexe.github.io/api-patcher-ver.txt"
def wineInstallURL : GoString := str "https://wiki.winehq.org/Download"
def patcherDownloadURL : GoString :=
  str "https://github.com/AdmiralCurtiss/WfcPatcher/releases/download/v1.6/WfcPatcher1.6.zip"

/-! ## The file system -/

/-- What a path names: a regular file with its bytes, or a directory. -/
inductive Node where
  | file (content : GoString)
  | dir
  deriving DecidableEq

/-- The file system seen from the current directory: what each relative path
names, if anything.  Keys are cleaned paths (no leading `./`). -/
abbrev FS := GoString → Option Node

/-- Path cleaning, as far as the paths of the program need it: a leading `./`
is dropped, so that `./output.nds` and `output.nds` name the same file. -/
def filepath.Clean : GoString → GoString
  | 46 :: 47 :: rest => rest
  | p => p

/-- `filepath.Join(dir, name)`: joined with a slash, then cleaned. -/
def filepath.Join (dir name : GoString) : GoString := filepath.Clean (dir ++ 47 :: name)

/-- The file system with `p` naming `n` (or nothing). -/
def FS.set (fs : FS) (p : GoString) (n : Option Node) : FS :=
  fun q => if q = p then n else fs q

/-- The rest of `p` below directory `d`, when `p` lies below `d`. -/
def FS.below (d p : GoString) : Option GoString :=
  if (d ++ [47]).isPrefixOf p then some (p.drop (d.length + 1)) else none

/-- The file system after `o` has been moved to `n`: `n` names what `o` named,
what was below `o` is below `n`, and `o` names nothing. -/
def FS.move (fs : FS) (o n : GoString) : FS :=
  fun q =>
    if q = n then fs o
    else
      match FS.below n q with
      | some rest => fs (o ++ 47 :: rest)
      | none =>
        if q = o then none
        else
          match FS.below o q with
          | some _ => none
          | none => fs q

/-! ## Byte streams and archives -/

/-- What reading a stream to its end yields: the bytes read, then either the end
of the stream (`none`) or a read error. -/
structure Stream where
  data : GoString
  err : Option Err

/-- An entry of a zip archive (`zip.File`): its name and what `f.Open()` gives,
an error or the stream of its decompressed bytes. -/
structure ZipFile where
  Name : GoString
  Open : Except Err Stream

/-! ## Operations and the world -/

/-- The functions of `main.go`. -/
inductive Fn where
  | checkVersion | isWineInstalled | ensurePatcherExists | downloadFile
  | extractFileFromZip | listNDSFiles | copyFile | patchGame
  deriving DecidableEq

/-- What the program does, one entry per library call (`call` marks the entry
into a function of `main.go`). -/
inductive Op where
  | call (fn : Fn)
  | lookPath (file : GoString)
  | httpGet (url : GoString)
  | stat (p : GoString)
  | mkdirAll (p : GoString)
  | create (p : GoString)
  | write (p : GoString) (bytes : GoString)
  | openFile (p : GoString)
  | openZip (p : GoString)
  | openEntry (name : GoString)
  | remove (p : GoString)
  | rename (o n : GoString)
  | readDir (p : GoString)
  | run (args : List GoString)
  | scan
  | print (s : GoString)
  deriving DecidableEq

/-- The state the program acts on. -/
structure World where
  fs : FS
  log : List Op

/-- Everything the program cannot control.  A fault is `none` when the
operation is allowed to succeed. -/
structure Env where
  /-- Whether `exec.LookPath` finds the program on the search path. -/
  lookPath : GoString → Bool
  /-- The outcome of `http.Get`: an error or the response body. -/
  httpGet : GoString → Except Err Stream
  mkdirFault : GoString → Option Err
  createFault : GoString → Option Err
  openFault : GoString → Option Err
  /-- Writing to the file fails with the error after that many bytes. -/
  writeFault : GoString → Option (Nat × Err)
  removeFault : GoString → Option Err
  renameFault : GoString → GoString → Option Err
  /-- The zip decoding of the bytes of an archive. -/
  zipDecode : GoString → Except Err (List ZipFile)
  /-- The names `ioutil.ReadDir` enumerates in a directory, or its error. -/
  readDir : FS → GoString → Except Err (List GoString)
  /-- The outcome of `fmt.Scan(&choice)` on the standard input. -/
  scan : Except Err Int
  /-- What the subprocess does to the file system, and its outcome. -/
  run : List GoString → FS → Option Err × FS

def World.emit (w : World) (op : Op) : World := { w with log := w.log ++ [op] }

/-- `fmt.Print(s)`. -/
def fmt.Print (w : World) (s : GoString) : World := w.emit (.print s)

/-- `fmt.Println(s)`. -/
def fmt.Println (w : World) (s : String) : World := fmt.Print w (str s ++ [10])

/-- `exec.LookPath(file)`; `true` when the error is nil. -/
def exec.LookPath (env : Env) (w : World) (file : GoString) : Bool × World :=
  (env.lookPath file, w.emit (.lookPath file))

/-- `http.Get(url)`. -/
def http.Get (env : Env) (w : World) (url : GoString) : Except Err Stream × World :=
  (env.httpGet url, w.emit (.httpGet url))

/-- `ioutil.ReadAll(r)`: the bytes read and the error, if any. -/
def ioutil.ReadAll (r : Stream) : GoString × Option Err := (r.data, r.err)

/-- `os.Stat(p)`; `true` when the error is nil, that is when `p` names
something (a file or a directory). -/
def os.Stat (w : World) (p : GoString) : Bool × World :=
  ((w.fs (filepath.Clean p)).isSome, w.emit (.stat p))

/-- `os.MkdirAll(p, perm)` for a directory directly below the current one. -/
def os.MkdirAll (env : Env) (w : World) (p : GoString) : Option Err × World :=
  let w := w.emit (.mkdirAll p)
  match w.fs (filepath.Clean p) with
  | some .dir => (none, w)
  | some (.file _) => (some (str "not a directory"), w)
  | none =>
    match env.mkdirFault p with
    | some err => (some err, w)
    | none => (none, { w with fs := w.fs.set (filepath.Clean p) (some .dir) })

/-- `os.Create(p)`: creates the file or truncates it. -/
def os.Create (env : Env) (w : World) (p : GoString) : Option Err × World :=
  let w := w.emit (.create p)
  match w.fs (filepath.Clean p) with
  | some .dir => (some (str "is a directory"), w)
  | _ =>
    match env.createFault p with
    | some err => (some err, w)
    | none => (none, { w with fs := w.fs.set (filepath.Clean p) (some (.file [])) })

/-- Appends bytes to the file open at `p`. -/
def FS.append (fs : FS) (p : GoString) (bytes : GoString) : FS :=
  match fs p with
  | some (.file c) => fs.set p (some (.file (c ++ bytes)))
  | _ => fs

/-- `io.Copy(dst, src)` where `dst` is the file open for writing at `p`: the
bytes of `src` are written until the source ends, the source fails or a write
fails; what was written before a failure stays in the file. -/
def io.Copy (env : Env) (w : World) (p : GoString) (src : Stream) : Option Err × World :=
  match env.writeFault p with
  | some (k, err) =>
    if k < src.data.length then
      (some err, { fs := w.fs.append (filepath.Clean p) (src.data.take k),
                   log := w.log ++ [.write p (src.data.take k)] })
    else
      (src.err, { fs := w.fs.append (filepath.Clean p) src.data,
                  log := w.log ++ [.write p src.data] })
  | none =>
    (src.err, { fs := w.fs.append (filepath.Clean p) src.data,
                log := w.log ++ [.write p src.data] })

/-- `os.Open(p)`: a directory opens too, and fails when read. -/
def os.Open (env : Env) (w : World) (p : GoString) : Except Err Stream × World :=
  let w := w.emit (.openFile p)
  match w.fs (filepath.Clean p) with
  | none => (.error (str "no such file or directory"), w)
  | some .dir => (.ok ⟨[], some (str "is a directory")⟩, w)
  | some (.file c) =>
    match env.openFault p with
    | some err => (.error err, w)
    | none => (.ok ⟨c, none⟩, w)

/-- `os.Remove(p)`. -/
def os.Remove (env : Env) (w : World) (p : GoString) : Option Err × World :=
  let w := w.emit (.remove p)
  match w.fs (filepath.Clean p) with
  | none => (some (str "no such file or directory"), w)
  | some _ =>
    match env.removeFault p with
    | some err => (some err, w)
    | none => (none, { w with fs := w.fs.set (filepath.Clean p) none })

/-- `os.Rename(o, n)`: fails when `o` names nothing, when `n` names a
directory, when a directory would replace a file or move below itself;
otherwise `n` is replaced. -/
def os.Rename (env : Env) (w : World) (o n : GoString) : Option Err × World :=
  let w := w.emit (.rename o n)
  let co := filepath.Clean o
  let cn := filepath.Clean n
  match w.fs co, w.fs cn with
  | none, _ => (some (str "no such file or directory"), w)
  | some _, some .dir => (some (str "file exists"), w)
  | some .dir, some (.file _) => (some (str "not a directory"), w)
  | some _, _ =>
    if (FS.below co cn).isSome then (some (str "invalid argument"), w)
    else
      match env.renameFault o n with
      | some err => (some err, w)
      | none => (none, if co = cn then w else { w with fs := w.fs.move co cn })

/-- `zip.OpenReader(p)`: the entries of the archive, in archive order. -/
def zip.OpenReader (env : Env) (w : World) (p : GoString) :
    Except Err (List ZipFile) × World :=
  let w := w.emit (.openZip p)
  match w.fs (filepath.Clean p) with
  | some (.file c) =>
    match env.openFault p with
    | some err => (.error err, w)
    | none => (env.zipDecode c, w)
  | some .dir => (.error (str "is a directory"), w)
  | none => (.error (str "no such file or directory"), w)

/-- `ioutil.ReadDir(dir)`: the names of the entries. -/
def ioutil.ReadDir (env : Env) (w : World) (dir : GoString) :
    Except Err (List GoString) × World :=
  (env.readDir w.fs dir, w.emit (.readDir dir))

/-- `fmt.Scan(&choice)`. -/
def fmt.Scan (env : Env) (w : World) : Except Err Int × World :=
  (env.scan, w.emit .scan)

/-- `exec.Command(args...).Run()` with the output streams discarded. -/
def exec.Run (env : Env) (w : World) (args : List GoString) : Option Err × World :=
  ((env.run args w.fs).1, { fs := (env.run args w.fs).2, log := w.log ++ [.run args] })

/-! ## The functions of `main.go` -/

/-- `checkVersion`: `true` when the body fetched from the version URL contains
the version string. -/
def checkVersion (env : Env) (w : World) : Bool × World :=
  let w := w.emit (.call .checkVersion)
  match http.Get env w versionCheckURL with
  | (.error _, w) =>
    (false, fmt.Println w
      "Error: Could not check version. Make sure you have an internet connection.")
  | (.ok resp, w) =>
    match ioutil.ReadAll resp with
    | (_, some _) => (false, fmt.Println w "Error: Could not read version check response.")
    | (body, none) =>
      if strings.Contains body version then (true, w)
      else
        (false, fmt.Println w
          "Error: Version not supported. Make sure you have the latest Version.")

/-- `isWineInstalled`. -/
def isWineInstalled (env : Env) (w : World) : Bool × World :=
  exec.LookPath env (w.emit (.call .isWineInstalled)) (str "wine")

/-- `downloadFile(url, dest)`. -/
def downloadFile (env : Env) (w : World) (url dest : GoString) : Option Err × World :=
  let w := w.emit (.call .downloadFile)
  match http.Get env w url with
  | (.error err, w) => (some err, w)
  | (.ok resp, w) =>
    match os.Create env w dest with
    | (some err, w) => (some err, w)
    | (none, w) => io.Copy env w dest resp

/-- The loop of `extractFileFromZip` over the entries of the archive. -/
def extractFileFromZip.loop (env : Env) (targetFile outputPath : GoString) :
    List ZipFile → World → Option Err × World
  | [], w => (some (str "file " ++ targetFile ++ str " not found in zip archive"), w)
  | f :: rest, w =>
    if f.Name = targetFile then
      match f.Open with
      | .error err => (some err, w.emit (.openEntry f.Name))
      | .ok rc =>
        match os.Create env (w.emit (.openEntry f.Name)) outputPath with
        | (some err, w) => (some err, w)
        | (none, w) =>
          match io.Copy env w outputPath rc with
          | (some err, w) => (some err, w)
          | (none, w) => (none, w)
    else extractFileFromZip.loop env targetFile outputPath rest w

/-- `extractFileFromZip(zipPath, targetFile, outputPath)`. -/
def extractFileFromZip (env : Env) (w : World) (zipPath targetFile outputPath : GoString) :
    Option Err × World :=
  let w := w.emit (.call .extractFileFromZip)
  match zip.OpenReader env w zipPath with
  | (.error err, w) => (some err, w)
  | (.ok files, w) => extractFileFromZip.loop env targetFile outputPath files w

def patcherDir : GoString := str "./patcher"
def helperPath : GoString := filepath.Join patcherDir (str "helper.exe")
def zipPath : GoString := str "./WfcPatcher1.6.zip"

/-- `ensurePatcherExists`. The removal of the archive is deferred to the return
of the function, once the download has succeeded. -/
def ensurePatcherExists (env : Env) (w : World) : Option Err × World :=
  let w := w.emit (.call .ensurePatcherExists)
  match os.Stat w helperPath with
  | (true, w) => (none, w)
  | (false, w) =>
    let w := fmt.Println w "Patcher not found. Downloading and setting it up..."
    match os.MkdirAll env w patcherDir with
    | (some err, w) => (some (fmt.Errorf "error creating patcher directory: " err), w)
    | (none, w) =>
      match downloadFile env w patcherDownloadURL zipPath with
      | (some err, w) => (some (fmt.Errorf "error downloading patcher: " err), w)
      | (none, w) =>
        match extractFileFromZip env w zipPath (str "WfcPatcher.exe") helperPath with
        | (some err, w) =>
          (some (fmt.Errorf "error extracting WfcPatcher.exe: " err), (os.Remove env w zipPath).2)
        | (none, w) =>
          (none, (os.Remove env (fmt.Println w "Patcher successfully set up.") zipPath).2)

/-- `listNDSFiles(directory)`: the error of the enumeration with no names, or
the names ending in `.nds`. -/
def listNDSFiles (env : Env) (w : World) (directory : GoString) :
    Except Err (List GoString) × World :=
  let w := w.emit (.call .listNDSFiles)
  match ioutil.ReadDir env w directory with
  | (.error err, w) => (.error err, w)
  | (.ok files, w) => (.ok (files.filter (fun name => strings.HasSuffix name (str ".nds"))), w)

/-- `copyFile(src, dest)`. -/
def copyFile (env : Env) (w : World) (src dest : GoString) : Option Err × World :=
  let w := w.emit (.call .copyFile)
  match os.Open env w src with
  | (.error err, w) => (some err, w)
  | (.ok sourceFile, w) =>
    match os.Create env w dest with
    | (some err, w) => (some err, w)
    | (none, w) => io.Copy env w dest sourceFile

def tmpPath : GoString := str "./tmp/game.nds"
def outputFile : GoString := str "game(d.errexe.xyz).nds"

/-- The lines of the success message of `patchGame`. -/
def successBanner : List String :=
  [ "-------------------------------------",
    "ReviveMii Patcher Public Beta v0.0.1",
    "Game was patched successfully! It's \"output.nds\" now",
    "-------------------------------------",
    "Credits:",
    "helper.exe is https://github.com/AdmiralCurtiss/WfcPatcher",
    "helper.exe is licensed under the GNU General Public License v3.0 and because of this this Program is also licensed under the GNU General Public License v3.0.",
    "",
    "You can get this Program Source code on https://github.com/ReviveMii/Patcher",
    "",
    "(c) 2024. ReviveMii Project. https://revivemii.fr.to/" ]

/-- The part of `patchGame` that looks for the result of the helper and moves
it to `./output.nds`. -/
def patchGame.relocate (env : Env) (w : World) : Option Err × World :=
  match os.Stat w (str "./tmp/" ++ outputFile) with
  | (true, w) =>
    match os.Rename env w (str "./tmp/" ++ outputFile) (str "./output.nds") with
    | (some err, w) => (some (fmt.Errorf "Error moving patched file: " err), w)
    | (none, w) => (none, w)
  | (false, w) =>
    match os.Stat w (str "./" ++ outputFile) with
    | (true, w) =>
      match os.Rename env w (str "./" ++ outputFile) (str "./output.nds") with
      | (some err, w) => (some (fmt.Errorf "Error moving patched file: " err), w)
      | (none, w) => (none, w)
    | (false, w) => (some (str "Patching failed: Patched file not found"), w)

/-- `patchGame(ndsFile)`. -/
def patchGame (env : Env) (w : World) (ndsFile : GoString) : Option Err × World :=
  let w := w.emit (.call .patchGame)
  match os.MkdirAll env w (str "./tmp") with
  | (some err, w) => (some (fmt.Errorf "Error creating tmp directory: " err), w)
  | (none, w) =>
    match copyFile env w ndsFile tmpPath with
    | (some err, w) => (some (fmt.Errorf "Error copying file: " err), w)
    | (none, w) =>
      match exec.Run env w
          [str "wine", str "./patcher/helper.exe", str "-d", str "d.errexe.xyz", tmpPath] with
      | (some err, w) => (some (fmt.Errorf "Error running patcher: " err), w)
      | (none, w) =>
        match patchGame.relocate env w with
        | (some err, w) => (some err, w)
        | (none, w) => (none, successBanner.foldl fmt.Println w)

/-- The menu loop of `main`: entry `i` of the list is printed as `i+1) name`. -/
def main.menu : List GoString → Nat → World → World
  | [], _, w => w
  | file :: rest, i, w =>
    main.menu rest (i + 1) (fmt.Print w (str (toString (i + 1)) ++ str ") " ++ file ++ [10]))

/-- Go slice indexing `s[i]`; `none` is the run-time panic of an index out of range. -/
def index (s : List GoString) (i : Int) : Option GoString :=
  if i < 0 then none else s[i.toNat]?

/-- The part of `main` from the menu on, for the non-empty list `ndsFiles`: the
menu, the prompt, the choice and the patch. -/
def main.select (env : Env) (ndsFiles : List GoString) (w : World) : Nat × World :=
  let w := main.menu ndsFiles 0 (fmt.Println w "Select a file to patch:")
  match fmt.Scan env (fmt.Print w (str "Enter your choice: ")) with
  | (.error _, w) => (0, fmt.Println w "Invalid choice.")
  | (.ok choice, w) =>
    if choice < 1 ∨ choice > (ndsFiles.length : Int) then (0, fmt.Println w "Invalid choice.")
    else
      match index ndsFiles (choice - 1) with
      | none => (2, w)
      | some selectedFile =>
        match patchGame env (fmt.Print w (str "You selected: " ++ selectedFile ++ [10]))
            selectedFile with
        | (some err, w) => (1, fmt.Print w (str "Error: " ++ err ++ [10]))
        | (none, w) => (0, w)

/-- `main`: the exit code of the process and the final world.  Returning from
`main` exits with code 0, `os.Exit(1)` with code 1, a run-time panic with code 2. -/
def main (env : Env) (w : World) : Nat × World :=
  match isWineInstalled env w with
  | (false, w) =>
    (1, fmt.Print
      (fmt.Println w "Error: Wine is not installed. Please install Wine to run this program.")
      (str "You can download and install Wine from: " ++ wineInstallURL ++ [10]))
  | (true, w) =>
    match checkVersion env w with
    | (false, w) => (1, w)
    | (true, w) =>
      match ensurePatcherExists env w with
      | (some err, w) => (1, fmt.Print w (str "Error setting up patcher: " ++ err ++ [10]))
      | (none, w) =>
        match listNDSFiles env w (str ".") with
        | (.error err, w) => (1, fmt.Print w (str "Error listing files: " ++ err ++ [10]))
        | (.ok ndsFiles, w) =>
          if ndsFiles.length = 0 then (0, fmt.Println w "Nothing to patch.")
          else main.select env ndsFiles w

/-! ## Stages of a run and what stays in place -/

/-- The stages of the orchestration in `main`, in the order of the program text. -/
inductive Stage where
  | RuntimeCheck | VersionCheck | HelperSetup | Discovery | Selection | Patch
  deriving DecidableEq

/-- The stage an operation opens: each stage of `main` starts with one call. -/
def stageOf : Op → Option Stage
  | .call .isWineInstalled => some .RuntimeCheck
  | .call .checkVersion => some .VersionCheck
  | .call .ensurePatcherExists => some .HelperSetup
  | .call .listNDSFiles => some .Discovery
  | .scan => some .Selection
  | .call .patchGame => some .Patch
  | _ => none

/-- From world `w` to world `w'` the log has grown, and the operations added
open the stages `stages`, in that order. -/
def Staged (stages : List Stage) (w w' : World) : Prop :=
  ∃ l, w'.log = w.log ++ l ∧ l.filterMap stageOf = stages

/-- From world `w` to world `w'` what path `q` names has not changed. -/
def Keeps (q : GoString) (w w' : World) : Prop := w'.fs q = w.fs q

/-! ## The worlds between the steps of `main` and of `patchGame` -/

/-- The world after the runtime check. -/
def main.afterRuntimeCheck (env : Env) (w : World) : World := (isWineInstalled env w).2

/-- The world after the version check. -/
def main.afterVersionCheck (env : Env) (w : World) : World :=
  (checkVersion env (main.afterRuntimeCheck env w)).2

/-- The world after the helper setup. -/
def main.afterHelperSetup (env : Env) (w : World) : World :=
  (ensurePatcherExists env (main.afterVersionCheck env w)).2

/-- The world after the listing of the current directory. -/
def main.afterDiscovery (env : Env) (w : World) : World :=
  (listNDSFiles env (main.afterHelperSetup env w) (str ".")).2

/-- The world once the menu of `ndsFiles` and the prompt have been printed and
the choice has been read. -/
def main.prompted (ndsFiles : List GoString) (w : World) : World :=
  (fmt.Print (main.menu ndsFiles 0 (fmt.Println w "Select a file to patch:"))
    (str "Enter your choice: ")).emit .scan

/-- The world in which `patchGame` looks for the result: after the working
directory, the working copy and the run of the helper. -/
def patchGame.afterRun (env : Env) (w : World) (ndsFile : GoString) : World :=
  (exec.Run env
    (copyFile env (os.MkdirAll env (w.emit (.call .patchGame)) (str "./tmp")).2
      ndsFile tmpPath).2
    [str "wine", str "./patcher/helper.exe", str "-d", str "d.errexe.xyz", tmpPath]).2

/-! ## Example environments and worlds -/

/-- An environment in which nothing fails: `wine` is found, every request is
answered with the text `v0.0.1`, the current directory lists no entry, archives
decode to no entry, the subprocess does nothing and the input is not a number. -/
def Env.calm : Env where
  lookPath := fun _ => true
  httpGet := fun _ => .ok ⟨str "v0.0.1\n", none⟩
  mkdirFault := fun _ => none
  createFault := fun _ => none
  openFault := fun _ => none
  writeFault := fun _ => none
  removeFault := fun _ => none
  renameFault := fun _ _ => none
  zipDecode := fun _ => .ok []
  readDir := fun _ _ => .ok []
  scan := .error (str "expected integer")
  run := fun _ fs => (none, fs)

/-- The empty current directory, nothing done yet. -/
def World.empty : World := ⟨fun _ => none, []⟩

/-- A world in which the helper is installed. -/
def World.installed : World :=
  ⟨fun p => if p = str "patcher" then some .dir
            else if p = str "patcher/helper.exe" then some (.file (str "MZ")) else none, []⟩

/-- A directory listing with two names ending in `.nds`, one of them twice, a
name in upper case and a name with another suffix. -/
def Env.listing : Env :=
  { Env.calm with
    readDir := fun _ _ => .ok [str "b.nds", str "a.NDS", str "notes.txt", str "b.nds", str "a.nds"] }

/-- An unreadable current directory. -/
def Env.unreadable : Env :=
  { Env.calm with readDir := fun _ _ => .error (str "permission denied") }

/-- The version service answers with an empty body. -/
def Env.emptyBody : Env := { Env.calm with httpGet := fun _ => .ok ⟨[], none⟩ }

/-- An archive with the entries `A`, `B`, `C` and a second `B`. -/
def Env.archive : Env :=
  { Env.calm with
    zipDecode := fun _ => .ok
      [⟨str "A", .ok ⟨str "aaa", none⟩⟩, ⟨str "B", .ok ⟨str "bbb", none⟩⟩,
       ⟨str "C", .ok ⟨str "ccc", none⟩⟩, ⟨str "B", .ok ⟨str "later", none⟩⟩] }

/-- A world with an archive `pack.zip` and an older file `out.bin`. -/
def World.packed : World :=
  ⟨fun p => if p = str "pack.zip" then some (.file (str "PK"))
            else if p = str "out.bin" then some (.file (str "old")) else none, []⟩

/-- The directory lists the five names of `Env.listing` and the outcome of reading
the choice is `r`. -/
def Env.choose (r : Except Err Int) : Env := { Env.listing with scan := r }

/-- The download answers with an archive that holds a readme and
`WfcPatcher.exe`; nothing fails. -/
def Env.release : Env :=
  { Env.calm with
    httpGet := fun url =>
      if url = versionCheckURL then .ok ⟨str "v0.0.1\n", none⟩ else .ok ⟨str "PK", none⟩
    zipDecode := fun _ => .ok
      [⟨str "readme.txt", .ok ⟨str "read me", none⟩⟩,
       ⟨str "WfcPatcher.exe", .ok ⟨str "MZP", none⟩⟩] }

/-- As `Env.release`, but the disk is full after one byte of the helper has
been written. -/
def Env.diskFull : Env :=
  { Env.release with
    writeFault := fun p =>
      if p = helperPath then some (1, str "no space left on device") else none }

/-- As `Env.release`, but the disk is full before any byte of the helper is
written. -/
def Env.diskFullAtOnce : Env :=
  { Env.release with
    writeFault := fun p =>
      if p = helperPath then some (0, str "no space left on device") else none }

/-- As `Env.release`, but the helper file cannot be created. -/
def Env.readOnly : Env :=
  { Env.release with
    createFault := fun p => if p = helperPath then some (str "permission denied") else none }

/-- The network is down: every request fails. -/
def Env.offline : Env :=
  { Env.calm with httpGet := fun _ => .error (str "no route to host") }

/-- A helper that writes its result under the working directory `./tmp`. -/
def Env.helperTmp : Env :=
  { Env.calm with
    run := fun _ fs =>
      (none, fs.set (str "tmp/game(d.errexe.xyz).nds") (some (.file (str "patched")))) }

/-- A helper that writes its result in the current directory. -/
def Env.helperCwd : Env :=
  { Env.calm with
    run := fun _ fs =>
      (none, fs.set (str "game(d.errexe.xyz).nds") (some (.file (str "patched")))) }

/-- A helper that exits successfully without writing a result. -/
def Env.helperSilent : Env := Env.calm

/-- A current directory with the helper, a game `b.nds`, an older
`output.nds` and a stale result in the current directory. -/
def World.ready : World :=
  ⟨fun p =>
    if p = str "patcher" then some .dir
    else if p = str "patcher/helper.exe" then some (.file (str "MZ"))
    else if p = str "b.nds" then some (.file (str "game"))
    else if p = str "output.nds" then some (.file (str "old"))
    else if p = str "game(d.errexe.xyz).nds" then some (.file (str "stale"))
    else none, []⟩

/-- A current directory with the helper and a game `b.nds`, and nothing else. -/
def World.fresh : World :=
  ⟨fun p =>
    if p = str "patcher" then some .dir
    else if p = str "patcher/helper.exe" then some (.file (str "MZ"))
    else if p = str "b.nds" then some (.file (str "game"))
    else none, []⟩

/-- As `World.fresh`, but `output.nds` is a directory. -/
def World.blocked : World :=
  ⟨fun p =>
    if p = str "patcher" then some .dir
    else if p = str "patcher/helper.exe" then some (.file (str "MZ"))
    else if p = str "b.nds" then some (.file (str "game"))
    else if p = str "output.nds" then some .dir
    else none, []⟩

/-! ## Strings: the library functions do what their names say -/

theorem strings.HasSuffix_iff (s suffix : GoString) :
    strings.HasSuffix s suffix = true ↔ suffix <:+ s := by
  unfold strings.HasSuffix
  rw [List.suffix_iff_eq_drop]
  constructor
  · intro h
    simp only [Bool.and_eq_true, decide_eq_true_eq, beq_iff_eq] at h
    exact h.2.symm
  · intro h
    have hl : suffix.length ≤ s.length := by
      have := congrArg List.length h
      simp at this
      omega
    simp only [Bool.and_eq_true, decide_eq_true_eq, beq_iff_eq]
    exact ⟨hl, h.symm⟩

theorem strings.IndexFrom_nonneg_iff (substr s : GoString) (i : Nat) :
    0 ≤ strings.IndexFrom substr s i ↔ substr <:+: s := by
  induction s generalizing i with
  | nil =>
    unfold strings.IndexFrom
    by_cases h : substr = []
    · simp [h]
    · simp [h]
  | cons c t ih =>
    unfold strings.IndexFrom
    rw [List.infix_cons_iff]
    by_cases h : substr.isPrefixOf (c :: t) = true
    · rw [if_pos h]
      have := List.isPrefixOf_iff_prefix.mp h
      simp [this]
    · rw [if_neg h, ih]
      have : ¬ substr <+: c :: t := fun hp => h (List.isPrefixOf_iff_prefix.mpr hp)
      simp [this]

theorem strings.Contains_iff (s substr : GoString) :
    strings.Contains s substr = true ↔ substr <:+: s := by
  unfold strings.Contains strings.Index
  rw [decide_eq_true_eq, strings.IndexFrom_nonneg_iff]

/-! ## C1: `listNDSFiles` -/

/-- C1: when the enumeration of the directory succeeds with the names `E`,
`listNDSFiles` returns without error a list `R` that is a subsequence of `E`
(same order), holds exactly the names of `E` that end in `.nds`, each as often
as in `E`, and is empty when no name matches; when the enumeration fails, that
error is returned, with no names. -/
theorem listNDSFiles_spec (env : Env) (w : World) (directory : GoString) :
    (∀ E, env.readDir w.fs directory = .ok E →
      ∃ R, (listNDSFiles env w directory).1 = .ok R ∧
        R.Sublist E ∧
        (∀ name, name ∈ R ↔ name ∈ E ∧ str ".nds" <:+ name) ∧
        (∀ name, str ".nds" <:+ name → R.count name = E.count name) ∧
        ((∀ name ∈ E, ¬ str ".nds" <:+ name) → R = [])) ∧
    (∀ err, env.readDir w.fs directory = .error err →
      (listNDSFiles env w directory).1 = .error err) := by
  constructor
  · intro E hE
    refine ⟨E.filter (fun name => strings.HasSuffix name (str ".nds")), ?_, ?_, ?_, ?_, ?_⟩
    · simp [listNDSFiles, ioutil.ReadDir, World.emit, hE]
    · exact List.filter_sublist E
    · intro name
      simp [List.mem_filter, strings.HasSuffix_iff]
    · intro name hname
      exact List.count_filter ((strings.HasSuffix_iff _ _).mpr hname)
    · intro hnone
      rw [List.filter_eq_nil_iff]
      intro name hmem hsuf
      exact hnone name hmem ((strings.HasSuffix_iff _ _).mp hsuf)
  · intro err hE
    simp [listNDSFiles, ioutil.ReadDir, World.emit, hE]

/-- C1 at a listing with five names and at an unreadable directory. -/
theorem listNDSFiles_spec_witness :
    (∃ R, (listNDSFiles Env.listing World.empty (str ".")).1 = .ok R ∧
        R.Sublist [str "b.nds", str "a.NDS", str "notes.txt", str "b.nds", str "a.nds"] ∧
        (∀ name, name ∈ R ↔
          name ∈ [str "b.nds", str "a.NDS", str "notes.txt", str "b.nds", str "a.nds"] ∧
            str ".nds" <:+ name) ∧
        (∀ name, str ".nds" <:+ name → R.count name =
          [str "b.nds", str "a.NDS", str "notes.txt", str "b.nds", str "a.nds"].count name) ∧
        ((∀ name ∈ [str "b.nds", str "a.NDS", str "notes.txt", str "b.nds", str "a.nds"],
            ¬ str ".nds" <:+ name) → R = [])) ∧
      (listNDSFiles Env.unreadable World.empty (str ".")).1 = .error (str "permission denied") :=
  ⟨(listNDSFiles_spec Env.listing World.empty (str ".")).1 _ rfl,
   (listNDSFiles_spec Env.unreadable World.empty (str ".")).2 _ rfl⟩

/-! ## C4: `checkVersion` -/

/-- C4: `checkVersion` returns true exactly when the request succeeds, the body
is read without error and the body contains `v0.0.1`; it returns false for a
network error, a read error, an empty body and a body without the version. -/
theorem checkVersion_spec (env : Env) (w : World) :
    ((checkVersion env w).1 = true ↔
      ∃ body, env.httpGet versionCheckURL = .ok ⟨body, none⟩ ∧ str "v0.0.1" <:+: body) ∧
    (∀ err, env.httpGet versionCheckURL = .error err → (checkVersion env w).1 = false) ∧
    (∀ body err, env.httpGet versionCheckURL = .ok ⟨body, some err⟩ →
      (checkVersion env w).1 = false) ∧
    (env.httpGet versionCheckURL = .ok ⟨[], none⟩ → (checkVersion env w).1 = false) ∧
    (∀ body, env.httpGet versionCheckURL = .ok ⟨body, none⟩ → ¬ str "v0.0.1" <:+: body →
      (checkVersion env w).1 = false) := by
  have key : ∀ body, env.httpGet versionCheckURL = .ok ⟨body, none⟩ →
      (checkVersion env w).1 = strings.Contains body version := by
    intro body h
    simp only [checkVersion, http.Get, ioutil.ReadAll, h]
    split <;> simp_all
  have hfail : ∀ err, env.httpGet versionCheckURL = .error err →
      (checkVersion env w).1 = false := by
    intro err h
    simp [checkVersion, http.Get, h]
  have hread : ∀ body err, env.httpGet versionCheckURL = .ok ⟨body, some err⟩ →
      (checkVersion env w).1 = false := by
    intro body err h
    simp [checkVersion, http.Get, ioutil.ReadAll, h]
  have hno : ∀ body, env.httpGet versionCheckURL = .ok ⟨body, none⟩ →
      ¬ str "v0.0.1" <:+: body → (checkVersion env w).1 = false := by
    intro body h hn
    rw [key body h]
    cases hc : strings.Contains body version
    · rfl
    · exact absurd ((strings.Contains_iff _ _).mp hc) hn
  refine ⟨?_, hfail, hread, ?_, hno⟩
  · constructor
    · intro h
      cases hg : env.httpGet versionCheckURL with
      | error err => rw [hfail err hg] at h; cases h
      | ok resp =>
        obtain ⟨body, rerr⟩ := resp
        cases rerr with
        | some err => rw [hread body err hg] at h; cases h
        | none =>
          rw [key body hg] at h
          exact ⟨body, rfl, (strings.Contains_iff _ _).mp h⟩
    · rintro ⟨body, hg, hin⟩
      rw [key body hg]
      exact (strings.Contains_iff _ _).mpr hin
  · intro h
    exact hno [] h (by decide)

/-- C4 at a body that holds the version and at an empty body. -/
theorem checkVersion_spec_witness :
    (checkVersion Env.calm World.empty).1 = true ∧
      (checkVersion Env.emptyBody World.empty).1 = false :=
  ⟨(checkVersion_spec Env.calm World.empty).1.mpr ⟨str "v0.0.1\n", rfl, [], [10], rfl⟩,
   (checkVersion_spec Env.emptyBody World.empty).2.2.2.1 rfl⟩

/-! ## C5 and C6: `extractFileFromZip` -/

theorem FS.set_set (fs : FS) (p : GoString) (a b : Option Node) :
    (fs.set p a).set p b = fs.set p b := by
  funext q
  unfold FS.set
  split <;> rfl

theorem FS.append_set_file (fs : FS) (p c bytes : GoString) :
    (fs.set p (some (.file c))).append p bytes = fs.set p (some (.file (c ++ bytes))) := by
  unfold FS.append
  simp only [FS.set, if_true]
  exact FS.set_set fs p _ _

theorem extractFileFromZip.loop_absent (env : Env) (targetFile outputPath : GoString)
    (files : List ZipFile) (w : World) (habsent : ∀ f ∈ files, f.Name ≠ targetFile) :
    extractFileFromZip.loop env targetFile outputPath files w =
      (some (str "file " ++ targetFile ++ str " not found in zip archive"), w) := by
  induction files with
  | nil => rfl
  | cons f rest ih =>
    unfold extractFileFromZip.loop
    rw [if_neg (habsent f (List.mem_cons_self _ _))]
    exact ih (fun g hg => habsent g (List.mem_cons_of_mem _ hg))

theorem extractFileFromZip.loop_skip (env : Env) (targetFile outputPath : GoString)
    (before rest : List ZipFile) (w : World) (hbefore : ∀ f ∈ before, f.Name ≠ targetFile) :
    extractFileFromZip.loop env targetFile outputPath (before ++ rest) w =
      extractFileFromZip.loop env targetFile outputPath rest w := by
  induction before with
  | nil => rfl
  | cons f more ih =>
    rw [List.cons_append, extractFileFromZip.loop,
      if_neg (hbefore f (List.mem_cons_self _ _))]
    exact ih (fun g hg => hbefore g (List.mem_cons_of_mem _ hg))

theorem zip.OpenReader_ok (env : Env) (w : World) (zipPath bytes : GoString)
    (files : List ZipFile)
    (hfile : w.fs (filepath.Clean zipPath) = some (.file bytes))
    (hperm : env.openFault zipPath = none) (hdec : env.zipDecode bytes = .ok files) :
    zip.OpenReader env w zipPath = (.ok files, w.emit (.openZip zipPath)) := by
  simp [zip.OpenReader, World.emit, hfile, hperm, hdec]

/-- C5: for a readable archive none of whose entries has the target name,
`extractFileFromZip` returns the `not found in zip archive` error, leaves the
whole file system (the output path included) as it was, and does nothing but
open the archive: no entry is opened, no file is created or written. -/
theorem extractFileFromZip_not_found (env : Env) (w : World)
    (zipPath targetFile outputPath bytes : GoString) (files : List ZipFile)
    (hfile : w.fs (filepath.Clean zipPath) = some (.file bytes))
    (hperm : env.openFault zipPath = none) (hdec : env.zipDecode bytes = .ok files)
    (habsent : ∀ f ∈ files, f.Name ≠ targetFile) :
    (extractFileFromZip env w zipPath targetFile outputPath).1 =
        some (str "file " ++ targetFile ++ str " not found in zip archive") ∧
      (extractFileFromZip env w zipPath targetFile outputPath).2.fs = w.fs ∧
      (extractFileFromZip env w zipPath targetFile outputPath).2.log =
        w.log ++ [.call .extractFileFromZip, .openZip zipPath] := by
  have hopen := zip.OpenReader_ok env (w.emit (.call .extractFileFromZip)) zipPath bytes files
    hfile hperm hdec
  simp only [extractFileFromZip, hopen, extractFileFromZip.loop_absent env _ _ files _ habsent]
  simp [World.emit]

/-- C5 at the archive with entries `A`, `B`, `C`, `B` and the target `D`. -/
theorem extractFileFromZip_not_found_witness :
    (extractFileFromZip Env.archive World.packed (str "pack.zip") (str "D") (str "out.bin")).1 =
        some (str "file " ++ str "D" ++ str " not found in zip archive") ∧
      (extractFileFromZip Env.archive World.packed (str "pack.zip") (str "D")
        (str "out.bin")).2.fs = World.packed.fs ∧
      (extractFileFromZip Env.archive World.packed (str "pack.zip") (str "D")
        (str "out.bin")).2.log =
        World.packed.log ++ [.call .extractFileFromZip, .openZip (str "pack.zip")] :=
  extractFileFromZip_not_found Env.archive World.packed (str "pack.zip") (str "D")
    (str "out.bin") (str "PK") _ rfl rfl rfl (by decide)

/-- C6: for a readable archive whose first entry named as the target is `f`
(the entries before it have other names), when opening `f` gives the bytes
`data` without error, the output can be created and all of `data` can be
written, `extractFileFromZip` returns success; afterwards the output path names
a file holding exactly `data`, every other path is as before, and the only
entry opened is `f`: the log is one archive open, one entry open, one create
and one write of `data`. -/
theorem extractFileFromZip_found (env : Env) (w : World)
    (zipPath targetFile outputPath bytes data : GoString)
    (before after : List ZipFile) (f : ZipFile)
    (hfile : w.fs (filepath.Clean zipPath) = some (.file bytes))
    (hperm : env.openFault zipPath = none)
    (hdec : env.zipDecode bytes = .ok (before ++ f :: after))
    (hbefore : ∀ g ∈ before, g.Name ≠ targetFile) (hname : f.Name = targetFile)
    (hentry : f.Open = .ok ⟨data, none⟩)
    (hnodir : w.fs (filepath.Clean outputPath) ≠ some .dir)
    (hcreate : env.createFault outputPath = none)
    (hwrite : ∀ k err, env.writeFault outputPath = some (k, err) → data.length ≤ k) :
    (extractFileFromZip env w zipPath targetFile outputPath).1 = none ∧
      (extractFileFromZip env w zipPath targetFile outputPath).2.fs =
        w.fs.set (filepath.Clean outputPath) (some (.file data)) ∧
      (extractFileFromZip env w zipPath targetFile outputPath).2.log =
        w.log ++ [.call .extractFileFromZip, .openZip zipPath, .openEntry targetFile,
          .create outputPath, .write outputPath data] := by
  have hopen := zip.OpenReader_ok env (w.emit (.call .extractFileFromZip)) zipPath bytes _
    hfile hperm hdec
  have hcr : ∀ w1 : World, w1.fs = w.fs →
      os.Create env w1 outputPath =
        (none, { fs := w.fs.set (filepath.Clean outputPath) (some (.file [])),
                 log := w1.log ++ [.create outputPath] }) := by
    intro w1 h1
    unfold os.Create
    simp only [World.emit, h1, hcreate]
  have hcp : ∀ w1 : World, w1.fs = w.fs.set (filepath.Clean outputPath) (some (.file [])) →
      io.Copy env w1 outputPath ⟨data, none⟩ =
        (none, { fs := w.fs.set (filepath.Clean outputPath) (some (.file data)),
                 log := w1.log ++ [.write outputPath data] }) := by
    intro w1 h1
    unfold io.Copy
    cases hw : env.writeFault outputPath with
    | none => simp [h1, FS.append_set_file]
    | some ke =>
      obtain ⟨k, err⟩ := ke
      have := hwrite k err hw
      simp [h1, FS.append_set_file, Nat.not_lt.mpr this]
  simp only [extractFileFromZip, hopen, extractFileFromZip.loop_skip env _ _ before _ _ hbefore]
  unfold extractFileFromZip.loop
  rw [if_pos hname]
  simp only [hentry]
  rw [hcr _ (by simp [World.emit])]
  simp only []
  rw [hcp _ rfl]
  simp [World.emit, hname]

/-- C6 at the archive with entries `A`, `B`, `C`, `B` and the target `B`: the
output holds the bytes of the first `B`. -/
theorem extractFileFromZip_found_witness :
    (extractFileFromZip Env.archive World.packed (str "pack.zip") (str "B") (str "out.bin")).1 =
        none ∧
      (extractFileFromZip Env.archive World.packed (str "pack.zip") (str "B")
        (str "out.bin")).2.fs =
        World.packed.fs.set (filepath.Clean (str "out.bin")) (some (.file (str "bbb"))) ∧
      (extractFileFromZip Env.archive World.packed (str "pack.zip") (str "B")
        (str "out.bin")).2.log =
        World.packed.log ++ [.call .extractFileFromZip, .openZip (str "pack.zip"),
          .openEntry (str "B"), .create (str "out.bin"), .write (str "out.bin") (str "bbb")] :=
  extractFileFromZip_found Env.archive World.packed (str "pack.zip") (str "B") (str "out.bin")
    (str "PK") (str "bbb") [⟨str "A", .ok ⟨str "aaa", none⟩⟩] _ ⟨str "B", .ok ⟨str "bbb", none⟩⟩
    rfl rfl rfl (by decide) rfl rfl (by decide) rfl (by intro k err h; cases h)

/-! ## How the log grows -/

theorem Staged.refl (w : World) : Staged [] w w := ⟨[], by simp, rfl⟩

theorem Staged.trans {s1 s2 : List Stage} {w w1 w2 : World}
    (h1 : Staged s1 w w1) (h2 : Staged s2 w1 w2) : Staged (s1 ++ s2) w w2 := by
  obtain ⟨l1, e1, f1⟩ := h1
  obtain ⟨l2, e2, f2⟩ := h2
  exact ⟨l1 ++ l2, by rw [e2, e1, List.append_assoc], by rw [List.filterMap_append, f1, f2]⟩

theorem Staged.step {s : List Stage} {w w1 w2 : World}
    (h2 : Staged [] w1 w2) (h1 : Staged s w w1) : Staged s w w2 := by
  simpa using h1.trans h2

theorem Staged.of_eq {α : Type} {s : List Stage} {x : α × World} {r : α} {w w1 : World}
    (heq : x = (r, w1)) (h : Staged s w x.2) : Staged s w w1 := by
  subst heq; exact h

theorem Staged.emit (w : World) (op : Op) (h : stageOf op = none) :
    Staged [] w (w.emit op) := ⟨[op], rfl, by simp [h]⟩

theorem Staged.emit_stage (w : World) (op : Op) (st : Stage) (h : stageOf op = some st) :
    Staged [st] w (w.emit op) := ⟨[op], rfl, by simp [h]⟩

theorem fmt.Print_staged (w : World) (s : GoString) : Staged [] w (fmt.Print w s) :=
  Staged.emit w _ rfl

theorem fmt.Println_staged (w : World) (s : String) : Staged [] w (fmt.Println w s) :=
  Staged.emit w _ rfl

theorem exec.LookPath_staged (env : Env) (w : World) (file : GoString) :
    Staged [] w (exec.LookPath env w file).2 := Staged.emit w _ rfl

theorem http.Get_staged (env : Env) (w : World) (url : GoString) :
    Staged [] w (http.Get env w url).2 := Staged.emit w _ rfl

theorem os.Stat_staged (w : World) (p : GoString) : Staged [] w (os.Stat w p).2 :=
  Staged.emit w _ rfl

theorem os.MkdirAll_staged (env : Env) (w : World) (p : GoString) :
    Staged [] w (os.MkdirAll env w p).2 := by
  refine ⟨[.mkdirAll p], ?_, rfl⟩
  unfold os.MkdirAll
  dsimp only
  repeat' split
  all_goals rfl

theorem os.Create_staged (env : Env) (w : World) (p : GoString) :
    Staged [] w (os.Create env w p).2 := by
  refine ⟨[.create p], ?_, rfl⟩
  unfold os.Create
  dsimp only
  repeat' split
  all_goals rfl

theorem io.Copy_staged (env : Env) (w : World) (p : GoString) (src : Stream) :
    Staged [] w (io.Copy env w p src).2 := by
  unfold io.Copy
  repeat' split
  all_goals exact ⟨[.write p _], rfl, rfl⟩

theorem os.Open_staged (env : Env) (w : World) (p : GoString) :
    Staged [] w (os.Open env w p).2 := by
  refine ⟨[.openFile p], ?_, rfl⟩
  unfold os.Open
  dsimp only
  repeat' split
  all_goals rfl

theorem os.Remove_staged (env : Env) (w : World) (p : GoString) :
    Staged [] w (os.Remove env w p).2 := by
  refine ⟨[.remove p], ?_, rfl⟩
  unfold os.Remove
  dsimp only
  repeat' split
  all_goals rfl

theorem os.Rename_staged (env : Env) (w : World) (o n : GoString) :
    Staged [] w (os.Rename env w o n).2 := by
  refine ⟨[.rename o n], ?_, rfl⟩
  unfold os.Rename
  dsimp only
  repeat' split
  all_goals rfl

theorem zip.OpenReader_staged (env : Env) (w : World) (p : GoString) :
    Staged [] w (zip.OpenReader env w p).2 := by
  refine ⟨[.openZip p], ?_, rfl⟩
  unfold zip.OpenReader
  dsimp only
  repeat' split
  all_goals rfl

theorem ioutil.ReadDir_staged (env : Env) (w : World) (dir : GoString) :
    Staged [] w (ioutil.ReadDir env w dir).2 := Staged.emit w _ rfl

theorem exec.Run_staged (env : Env) (w : World) (args : List GoString) :
    Staged [] w (exec.Run env w args).2 := ⟨[.run args], rfl, rfl⟩

theorem downloadFile_staged (env : Env) (w : World) (url dest : GoString) :
    Staged [] w (downloadFile env w url dest).2 := by
  unfold downloadFile
  dsimp only
  repeat' split
  all_goals
    repeat
      first
      | exact Staged.emit _ _ rfl
      | refine Staged.step (io.Copy_staged _ _ _ _) ?_
      | refine Staged.step (Staged.of_eq (by assumption) (http.Get_staged _ _ _)) ?_
      | refine Staged.step (Staged.of_eq (by assumption) (os.Create_staged _ _ _)) ?_

theorem copyFile_staged (env : Env) (w : World) (src dest : GoString) :
    Staged [] w (copyFile env w src dest).2 := by
  unfold copyFile
  dsimp only
  repeat' split
  all_goals
    repeat
      first
      | exact Staged.emit _ _ rfl
      | refine Staged.step (io.Copy_staged _ _ _ _) ?_
      | refine Staged.step (Staged.of_eq (by assumption) (os.Open_staged _ _ _)) ?_
      | refine Staged.step (Staged.of_eq (by assumption) (os.Create_staged _ _ _)) ?_

theorem extractFileFromZip.loop_staged (env : Env) (targetFile outputPath : GoString)
    (files : List ZipFile) (w : World) :
    Staged [] w (extractFileFromZip.loop env targetFile outputPath files w).2 := by
  induction files with
  | nil => exact Staged.refl _
  | cons f rest ih =>
    unfold extractFileFromZip.loop
    repeat' split
    all_goals
      repeat
        first
        | exact ih
        | exact Staged.emit _ _ rfl
        | refine Staged.step (Staged.of_eq (by assumption) (io.Copy_staged _ _ _ _)) ?_
        | refine Staged.step (Staged.of_eq (by assumption) (os.Create_staged _ _ _)) ?_

theorem extractFileFromZip_staged (env : Env) (w : World)
    (zipPath targetFile outputPath : GoString) :
    Staged [] w (extractFileFromZip env w zipPath targetFile outputPath).2 := by
  unfold extractFileFromZip
  dsimp only
  repeat' split
  all_goals
    repeat
      first
      | exact Staged.emit _ _ rfl
      | refine Staged.step (extractFileFromZip.loop_staged _ _ _ _ _) ?_
      | refine Staged.step (Staged.of_eq (by assumption) (zip.OpenReader_staged _ _ _)) ?_

theorem checkVersion_staged (env : Env) (w : World) :
    Staged [.VersionCheck] w (checkVersion env w).2 := by
  unfold checkVersion
  dsimp only
  repeat' split
  all_goals
    repeat
      first
      | exact Staged.emit_stage _ _ _ rfl
      | refine Staged.step (fmt.Println_staged _ _) ?_
      | refine Staged.step (Staged.of_eq (by assumption) (http.Get_staged _ _ _)) ?_

theorem isWineInstalled_staged (env : Env) (w : World) :
    Staged [.RuntimeCheck] w (isWineInstalled env w).2 :=
  Staged.step (exec.LookPath_staged _ _ _) (Staged.emit_stage _ _ _ rfl)

theorem ensurePatcherExists_staged (env : Env) (w : World) :
    Staged [.HelperSetup] w (ensurePatcherExists env w).2 := by
  unfold ensurePatcherExists
  dsimp only
  repeat' split
  all_goals
    repeat
      first
      | exact Staged.emit_stage _ _ _ rfl
      | refine Staged.step (fmt.Println_staged _ _) ?_
      | refine Staged.step (os.Remove_staged _ _ _) ?_
      | refine Staged.step (Staged.of_eq (by assumption) (os.Stat_staged _ _)) ?_
      | refine Staged.step (Staged.of_eq (by assumption) (os.MkdirAll_staged _ _ _)) ?_
      | refine Staged.step (Staged.of_eq (by assumption) (downloadFile_staged _ _ _ _)) ?_
      | refine Staged.step (Staged.of_eq (by assumption) (extractFileFromZip_staged _ _ _ _ _)) ?_

theorem listNDSFiles_staged (env : Env) (w : World) (directory : GoString) :
    Staged [.Discovery] w (listNDSFiles env w directory).2 := by
  unfold listNDSFiles
  dsimp only
  repeat' split
  all_goals
    repeat
      first
      | exact Staged.emit_stage _ _ _ rfl
      | refine Staged.step (Staged.of_eq (by assumption) (ioutil.ReadDir_staged _ _ _)) ?_

theorem patchGame.relocate_staged (env : Env) (w : World) :
    Staged [] w (patchGame.relocate env w).2 := by
  unfold patchGame.relocate
  repeat' split
  all_goals
    repeat
      first
      | exact Staged.refl _
      | refine Staged.step (Staged.of_eq (by assumption) (os.Stat_staged _ _)) ?_
      | refine Staged.step (Staged.of_eq (by assumption) (os.Rename_staged _ _ _ _)) ?_

theorem successBanner_staged (lines : List String) (w : World) :
    Staged [] w (lines.foldl fmt.Println w) := by
  induction lines generalizing w with
  | nil => exact Staged.refl _
  | cons s rest ih => exact Staged.step (ih _) (fmt.Println_staged w s)

theorem patchGame_staged (env : Env) (w : World) (ndsFile : GoString) :
    Staged [.Patch] w (patchGame env w ndsFile).2 := by
  unfold patchGame
  dsimp only
  repeat' split
  all_goals
    repeat
      first
      | exact Staged.emit_stage _ _ _ rfl
      | refine Staged.step (successBanner_staged _ _) ?_
      | refine Staged.step (Staged.of_eq (by assumption) (os.MkdirAll_staged _ _ _)) ?_
      | refine Staged.step (Staged.of_eq (by assumption) (copyFile_staged _ _ _ _)) ?_
      | refine Staged.step (Staged.of_eq (by assumption) (exec.Run_staged _ _ _)) ?_
      | refine Staged.step (Staged.of_eq (by assumption) (patchGame.relocate_staged _ _)) ?_

theorem main.menu_staged (files : List GoString) (i : Nat) (w : World) :
    Staged [] w (main.menu files i w) := by
  induction files generalizing i w with
  | nil => exact Staged.refl _
  | cons file rest ih => exact Staged.step (ih _ _) (fmt.Print_staged w _)

/-! ## The selection -/

theorem index_in_bounds (L : List GoString) (k : Int) (h1 : 1 ≤ k) (h2 : k ≤ L.length) :
    ∃ sel, index L (k - 1) = some sel ∧ L[(k - 1).toNat]? = some sel := by
  have hlt : (k - 1).toNat < L.length := by omega
  refine ⟨L[(k - 1).toNat], ?_, List.getElem?_eq_getElem hlt⟩
  unfold index
  rw [if_neg (by omega)]
  exact List.getElem?_eq_getElem hlt

theorem main.menu.log (files : List GoString) (i : Nat) (w : World) :
    (main.menu files i w).log =
      w.log ++ (files.enumFrom i).map
        (fun p => Op.print (str (toString (p.1 + 1)) ++ str ") " ++ p.2 ++ [10])) := by
  induction files generalizing i w with
  | nil => simp [main.menu]
  | cons file rest ih =>
    rw [main.menu, ih]
    simp [fmt.Print, World.emit, List.enumFrom]

theorem main.prompted.menu_line (L : List GoString) (w : World) (k : Int) (sel : GoString)
    (h1 : 1 ≤ k) (hsel : L[(k - 1).toNat]? = some sel) :
    Op.print (str (toString k.toNat) ++ str ") " ++ sel ++ [10]) ∈ (main.prompted L w).log := by
  have hmem : ((k - 1).toNat, sel) ∈ L.enumFrom 0 := by
    rw [List.mk_mem_enumFrom_iff_le_and_getElem?_sub]
    exact ⟨Nat.zero_le _, by simpa using hsel⟩
  have hk : (k - 1).toNat + 1 = k.toNat := by omega
  simp only [main.prompted, fmt.Print, World.emit, main.menu.log, List.mem_append,
    List.mem_map, List.mem_singleton]
  refine Or.inl (Or.inl (Or.inr ⟨_, hmem, ?_⟩))
  simp only [hk]

theorem main.prompted_staged (L : List GoString) (w : World) :
    Staged [.Selection] w (main.prompted L w) :=
  Staged.trans
    (Staged.step (fmt.Print_staged _ _)
      (Staged.step (main.menu_staged _ _ _) (fmt.Println_staged w _)))
    (Staged.emit_stage _ .scan .Selection rfl)

theorem main.select_invalid (env : Env) (L : List GoString) (w : World)
    (hbad : ∀ k : Int, env.scan = .ok k → k < 1 ∨ (L.length : Int) < k) :
    main.select env L w = (0, fmt.Println (main.prompted L w) "Invalid choice.") := by
  unfold main.select fmt.Scan
  dsimp only
  cases hs : env.scan with
  | error e => rfl
  | ok k =>
    have := hbad k hs
    simp only []
    rw [if_pos (by omega)]
    rfl

theorem main.select_valid (env : Env) (L : List GoString) (w : World) (k : Int)
    (sel : GoString) (hs : env.scan = .ok k) (h1 : 1 ≤ k) (h2 : k ≤ L.length)
    (hsel : index L (k - 1) = some sel) :
    main.select env L w =
      match patchGame env
          (fmt.Print (main.prompted L w) (str "You selected: " ++ sel ++ [10])) sel with
      | (some err, w) => (1, fmt.Print w (str "Error: " ++ err ++ [10]))
      | (none, w) => (0, w) := by
  unfold main.select fmt.Scan
  dsimp only
  simp only [hs]
  rw [if_neg (by omega)]
  simp only [hsel]
  rfl

theorem main_eq_select (env : Env) (w : World) (L : List GoString)
    (h1 : (isWineInstalled env w).1 = true)
    (h2 : (checkVersion env (main.afterRuntimeCheck env w)).1 = true)
    (h3 : (ensurePatcherExists env (main.afterVersionCheck env w)).1 = none)
    (h4 : (listNDSFiles env (main.afterHelperSetup env w) (str ".")).1 = .ok L)
    (hL : L ≠ []) :
    main env w = main.select env L (main.afterDiscovery env w) := by
  have e1 : isWineInstalled env w = (true, main.afterRuntimeCheck env w) := Prod.ext h1 rfl
  have e2 : checkVersion env (main.afterRuntimeCheck env w) =
      (true, main.afterVersionCheck env w) := Prod.ext h2 rfl
  have e3 : ensurePatcherExists env (main.afterVersionCheck env w) =
      (none, main.afterHelperSetup env w) := Prod.ext h3 rfl
  have e4 : listNDSFiles env (main.afterHelperSetup env w) (str ".") =
      (.ok L, main.afterDiscovery env w) := Prod.ext h4 rfl
  have hlen : L.length ≠ 0 := fun h => hL (List.length_eq_zero.mp h)
  simp only [main, e1, e2, e3, e4, if_neg hlen]

theorem Staged.counts {s : List Stage} {w w' : World} (h : Staged s w w') :
    ∃ l, w'.log = w.log ++ l ∧ l.count .scan = s.count .Selection ∧
      l.count (.call .patchGame) = s.count .Patch := by
  obtain ⟨l, hl, hf⟩ := h
  refine ⟨l, hl, ?_, ?_⟩
  · subst hf
    clear hl
    induction l with
    | nil => rfl
    | cons op rest ih =>
      cases op with
      | call fn => cases fn <;> simp [stageOf, List.filterMap_cons, List.count_cons, ih]
      | _ => simp [stageOf, List.filterMap_cons, List.count_cons, ih]
  · subst hf
    clear hl
    induction l with
    | nil => rfl
    | cons op rest ih =>
      cases op with
      | call fn => cases fn <;> simp [stageOf, List.filterMap_cons, List.count_cons, ih]
      | _ => simp [stageOf, List.filterMap_cons, List.count_cons, ih]

/-! ## C3: the choice decides whether `patchGame` runs -/

/-- C3: once the listing has returned the non-empty list `L`, the choice is read
exactly once; `patchGame` is called if and only if the input is read as an
integer `k` with `1 ≤ k ≤ len(L)`, and then at most once; in that case index
`k-1` is in bounds, the menu shows `L[k-1]` next to number `k`, and `main` ends
as the call of `patchGame` on `L[k-1]` ends; for every other input `main` prints
`Invalid choice.` right after the read and returns. -/
theorem main_selection (env : Env) (w : World) (L : List GoString)
    (h1 : (isWineInstalled env w).1 = true)
    (h2 : (checkVersion env (main.afterRuntimeCheck env w)).1 = true)
    (h3 : (ensurePatcherExists env (main.afterVersionCheck env w)).1 = none)
    (h4 : (listNDSFiles env (main.afterHelperSetup env w) (str ".")).1 = .ok L)
    (hL : L ≠ []) :
    ∃ l, (main env w).2.log = (main.afterDiscovery env w).log ++ l ∧
      l.count .scan = 1 ∧ l.count (.call .patchGame) ≤ 1 ∧
      (Op.call .patchGame ∈ l ↔ ∃ k : Int, env.scan = .ok k ∧ 1 ≤ k ∧ k ≤ L.length) ∧
      (∀ k : Int, env.scan = .ok k → 1 ≤ k → k ≤ L.length →
        ∃ sel, index L (k - 1) = some sel ∧ L[(k - 1).toNat]? = some sel ∧
          Op.print (str (toString k.toNat) ++ str ") " ++ sel ++ [10]) ∈
            (main.prompted L (main.afterDiscovery env w)).log ∧
          main env w =
            match patchGame env
                (fmt.Print (main.prompted L (main.afterDiscovery env w))
                  (str "You selected: " ++ sel ++ [10])) sel with
            | (some err, w) => (1, fmt.Print w (str "Error: " ++ err ++ [10]))
            | (none, w) => (0, w)) ∧
      ((¬ ∃ k : Int, env.scan = .ok k ∧ 1 ≤ k ∧ k ≤ L.length) →
        main env w =
          (0, fmt.Println (main.prompted L (main.afterDiscovery env w)) "Invalid choice.")) := by
  have hmain := main_eq_select env w L h1 h2 h3 h4 hL
  by_cases hv : ∃ k : Int, env.scan = .ok k ∧ 1 ≤ k ∧ k ≤ L.length
  · obtain ⟨k, hs, hk1, hk2⟩ := hv
    obtain ⟨sel, hidx, hget⟩ := index_in_bounds L k hk1 hk2
    have hval := main.select_valid env L (main.afterDiscovery env w) k sel hs hk1 hk2 hidx
    have hst : Staged [.Selection, .Patch] (main.afterDiscovery env w) (main env w).2 := by
      rw [hmain, hval]
      have hp := Staged.trans
        (Staged.step (fmt.Print_staged _ (str "You selected: " ++ sel ++ [10]))
          (main.prompted_staged L (main.afterDiscovery env w)))
        (patchGame_staged env _ sel)
      split
      · rename_i heq
        exact Staged.step (fmt.Print_staged _ _) (Staged.of_eq heq hp)
      · rename_i heq
        exact Staged.of_eq heq hp
    obtain ⟨l, hl, hscan, hpatch⟩ := hst.counts
    refine ⟨l, hl, by simpa using hscan, by simp [hpatch], ?_, ?_, ?_⟩
    · constructor
      · intro _
        exact ⟨k, hs, hk1, hk2⟩
      · intro _
        rw [← List.count_pos_iff, hpatch]
        decide
    · intro k' hs' _ _
      have hkk : k' = k := by
        rw [hs] at hs'
        injection hs' with hs'
        exact hs'.symm
      subst hkk
      exact ⟨sel, hidx, hget,
        main.prompted.menu_line L _ k' sel hk1 hget, by rw [hmain, hval]⟩
    · intro hn
      exact absurd ⟨k, hs, hk1, hk2⟩ hn
  · have hbad : ∀ k : Int, env.scan = .ok k → k < 1 ∨ (L.length : Int) < k := by
      intro k hs
      by_contra hc
      exact hv ⟨k, hs, by omega, by omega⟩
    have hinv := main.select_invalid env L (main.afterDiscovery env w) hbad
    have hst : Staged [.Selection] (main.afterDiscovery env w) (main env w).2 := by
      rw [hmain, hinv]
      exact Staged.step (fmt.Println_staged _ _) (main.prompted_staged L _)
    obtain ⟨l, hl, hscan, hpatch⟩ := hst.counts
    refine ⟨l, hl, by simpa using hscan, by simp [hpatch], ?_, ?_, ?_⟩
    · constructor
      · intro hmem
        rw [← List.count_pos_iff, hpatch] at hmem
        exact absurd hmem (by decide)
      · intro h
        exact absurd h hv
    · intro k hs hk1 hk2
      exact absurd ⟨k, hs, hk1, hk2⟩ hv
    · intro _
      rw [hmain, hinv]

/-- C3 at the listing `b.nds, a.NDS, notes.txt, b.nds, a.nds` with the input `2`. -/
theorem main_selection_witness :
    ∃ l, (main (Env.choose (.ok 2)) World.installed).2.log =
        (main.afterDiscovery (Env.choose (.ok 2)) World.installed).log ++ l ∧
      l.count .scan = 1 ∧ l.count (.call .patchGame) ≤ 1 ∧
      (Op.call .patchGame ∈ l ↔ ∃ k : Int, (Env.choose (.ok 2)).scan = .ok k ∧ 1 ≤ k ∧
        k ≤ [str "b.nds", str "b.nds", str "a.nds"].length) ∧
      (∀ k : Int, (Env.choose (.ok 2)).scan = .ok k → 1 ≤ k →
        k ≤ [str "b.nds", str "b.nds", str "a.nds"].length →
        ∃ sel, index [str "b.nds", str "b.nds", str "a.nds"] (k - 1) = some sel ∧
          [str "b.nds", str "b.nds", str "a.nds"][(k - 1).toNat]? = some sel ∧
          Op.print (str (toString k.toNat) ++ str ") " ++ sel ++ [10]) ∈
            (main.prompted [str "b.nds", str "b.nds", str "a.nds"]
              (main.afterDiscovery (Env.choose (.ok 2)) World.installed)).log ∧
          main (Env.choose (.ok 2)) World.installed =
            match patchGame (Env.choose (.ok 2))
                (fmt.Print (main.prompted [str "b.nds", str "b.nds", str "a.nds"]
                    (main.afterDiscovery (Env.choose (.ok 2)) World.installed))
                  (str "You selected: " ++ sel ++ [10])) sel with
            | (some err, w) => (1, fmt.Print w (str "Error: " ++ err ++ [10]))
            | (none, w) => (0, w)) ∧
      ((¬ ∃ k : Int, (Env.choose (.ok 2)).scan = .ok k ∧ 1 ≤ k ∧
          k ≤ [str "b.nds", str "b.nds", str "a.nds"].length) →
        main (Env.choose (.ok 2)) World.installed =
          (0, fmt.Println (main.prompted [str "b.nds", str "b.nds", str "a.nds"]
            (main.afterDiscovery (Env.choose (.ok 2)) World.installed)) "Invalid choice.")) :=
  main_selection (Env.choose (.ok 2)) World.installed [str "b.nds", str "b.nds", str "a.nds"]
    rfl (by decide) (by decide) rfl (by decide)


/-! ## The runs of `main`, case by case -/

theorem main.afterDiscovery_staged (env : Env) (w : World) :
    Staged [.RuntimeCheck, .VersionCheck, .HelperSetup, .Discovery] w
      (main.afterDiscovery env w) :=
  (((isWineInstalled_staged env w).trans (checkVersion_staged env _)).trans
    (ensurePatcherExists_staged env _)).trans (listNDSFiles_staged env _ _)

theorem main.select.staged_invalid (env : Env) (L : List GoString) (w : World)
    (hbad : ¬ ∃ k : Int, env.scan = .ok k ∧ 1 ≤ k ∧ k ≤ L.length) :
    main.select env L w = (0, fmt.Println (main.prompted L w) "Invalid choice.") ∧
      Staged [.Selection] w (main.select env L w).2 := by
  have hbad' : ∀ k : Int, env.scan = .ok k → k < 1 ∨ (L.length : Int) < k := by
    intro k hs
    by_contra hc
    exact hbad ⟨k, hs, by omega, by omega⟩
  have hinv := main.select_invalid env L w hbad'
  refine ⟨hinv, ?_⟩
  rw [hinv]
  exact Staged.step (fmt.Println_staged _ _) (main.prompted_staged L _)

theorem main.select.staged_valid (env : Env) (L : List GoString) (w : World) (k : Int)
    (hs : env.scan = .ok k) (h1 : 1 ≤ k) (h2 : k ≤ L.length) :
    Staged [.Selection, .Patch] w (main.select env L w).2 ∧
      ((main.select env L w).1 = 0 ∨ (main.select env L w).1 = 1) := by
  obtain ⟨sel, hidx, _⟩ := index_in_bounds L k h1 h2
  rw [main.select_valid env L w k sel hs h1 h2 hidx]
  have hp := Staged.trans
    (Staged.step (fmt.Print_staged _ (str "You selected: " ++ sel ++ [10]))
      (main.prompted_staged L w))
    (patchGame_staged env _ sel)
  split
  · rename_i heq
    exact ⟨Staged.step (fmt.Print_staged _ _) (Staged.of_eq heq hp), Or.inr rfl⟩
  · rename_i heq
    exact ⟨Staged.of_eq heq hp, Or.inl rfl⟩

/-- Every run of `main` is one of seven: it stops at the runtime check, at the
version check, at the helper setup, at a failed listing, at an empty listing,
at an invalid choice, or it goes through the patch. -/
theorem main_trace (env : Env) (w : World) :
    ((isWineInstalled env w).1 = false ∧
      Staged [.RuntimeCheck] w (main env w).2 ∧ (main env w).1 = 1) ∨
    ((isWineInstalled env w).1 = true ∧
      (checkVersion env (main.afterRuntimeCheck env w)).1 = false ∧
      Staged [.RuntimeCheck, .VersionCheck] w (main env w).2 ∧ (main env w).1 = 1) ∨
    ((isWineInstalled env w).1 = true ∧
      (checkVersion env (main.afterRuntimeCheck env w)).1 = true ∧
      (∃ err, (ensurePatcherExists env (main.afterVersionCheck env w)).1 = some err) ∧
      Staged [.RuntimeCheck, .VersionCheck, .HelperSetup] w (main env w).2 ∧
      (main env w).1 = 1) ∨
    ((isWineInstalled env w).1 = true ∧
      (checkVersion env (main.afterRuntimeCheck env w)).1 = true ∧
      (ensurePatcherExists env (main.afterVersionCheck env w)).1 = none ∧
      (∃ err, (listNDSFiles env (main.afterHelperSetup env w) (str ".")).1 = .error err) ∧
      Staged [.RuntimeCheck, .VersionCheck, .HelperSetup, .Discovery] w (main env w).2 ∧
      (main env w).1 = 1) ∨
    ((isWineInstalled env w).1 = true ∧
      (checkVersion env (main.afterRuntimeCheck env w)).1 = true ∧
      (ensurePatcherExists env (main.afterVersionCheck env w)).1 = none ∧
      (listNDSFiles env (main.afterHelperSetup env w) (str ".")).1 = .ok [] ∧
      Staged [.RuntimeCheck, .VersionCheck, .HelperSetup, .Discovery] w (main env w).2 ∧
      main env w = (0, fmt.Println (main.afterDiscovery env w) "Nothing to patch.")) ∨
    ((isWineInstalled env w).1 = true ∧
      (checkVersion env (main.afterRuntimeCheck env w)).1 = true ∧
      (ensurePatcherExists env (main.afterVersionCheck env w)).1 = none ∧
      (∃ L, (listNDSFiles env (main.afterHelperSetup env w) (str ".")).1 = .ok L ∧ L ≠ [] ∧
        (¬ ∃ k : Int, env.scan = .ok k ∧ 1 ≤ k ∧ k ≤ L.length) ∧
        main env w =
          (0, fmt.Println (main.prompted L (main.afterDiscovery env w)) "Invalid choice.")) ∧
      Staged [.RuntimeCheck, .VersionCheck, .HelperSetup, .Discovery, .Selection] w
        (main env w).2) ∨
    ((isWineInstalled env w).1 = true ∧
      (checkVersion env (main.afterRuntimeCheck env w)).1 = true ∧
      (ensurePatcherExists env (main.afterVersionCheck env w)).1 = none ∧
      (∃ L, (listNDSFiles env (main.afterHelperSetup env w) (str ".")).1 = .ok L ∧ L ≠ [] ∧
        ∃ k : Int, env.scan = .ok k ∧ 1 ≤ k ∧ k ≤ L.length) ∧
      Staged [.RuntimeCheck, .VersionCheck, .HelperSetup, .Discovery, .Selection, .Patch] w
        (main env w).2 ∧
      ((main env w).1 = 0 ∨ (main env w).1 = 1)) := by
  cases h1 : (isWineInstalled env w).1 with
  | false =>
    have e1 : isWineInstalled env w = (false, main.afterRuntimeCheck env w) := Prod.ext h1 rfl
    refine Or.inl ⟨rfl, ?_, ?_⟩
    · simp only [main, e1]
      exact Staged.step (fmt.Print_staged _ _)
        (Staged.step (fmt.Println_staged _ _) (isWineInstalled_staged env w))
    · simp only [main, e1]
  | true =>
    have e1 : isWineInstalled env w = (true, main.afterRuntimeCheck env w) := Prod.ext h1 rfl
    refine Or.inr ?_
    cases h2 : (checkVersion env (main.afterRuntimeCheck env w)).1 with
    | false =>
      have e2 : checkVersion env (main.afterRuntimeCheck env w) =
          (false, main.afterVersionCheck env w) := Prod.ext h2 rfl
      refine Or.inl ⟨rfl, rfl, ?_, ?_⟩
      · simp only [main, e1, e2]
        exact (isWineInstalled_staged env w).trans (checkVersion_staged env _)
      · simp only [main, e1, e2]
    | true =>
      have e2 : checkVersion env (main.afterRuntimeCheck env w) =
          (true, main.afterVersionCheck env w) := Prod.ext h2 rfl
      refine Or.inr ?_
      have hs3 : Staged [.RuntimeCheck, .VersionCheck, .HelperSetup] w
          (main.afterHelperSetup env w) :=
        ((isWineInstalled_staged env w).trans (checkVersion_staged env _)).trans
          (ensurePatcherExists_staged env _)
      cases h3 : (ensurePatcherExists env (main.afterVersionCheck env w)).1 with
      | some err =>
        have e3 : ensurePatcherExists env (main.afterVersionCheck env w) =
            (some err, main.afterHelperSetup env w) := Prod.ext h3 rfl
        refine Or.inl ⟨rfl, rfl, ⟨err, rfl⟩, ?_, ?_⟩
        · simp only [main, e1, e2, e3]
          exact Staged.step (fmt.Print_staged _ _) hs3
        · simp only [main, e1, e2, e3]
      | none =>
        have e3 : ensurePatcherExists env (main.afterVersionCheck env w) =
            (none, main.afterHelperSetup env w) := Prod.ext h3 rfl
        refine Or.inr ?_
        cases h4 : (listNDSFiles env (main.afterHelperSetup env w) (str ".")).1 with
        | error err =>
          have e4 : listNDSFiles env (main.afterHelperSetup env w) (str ".") =
              (.error err, main.afterDiscovery env w) := Prod.ext h4 rfl
          refine Or.inl ⟨rfl, rfl, rfl, ⟨err, rfl⟩, ?_, ?_⟩
          · simp only [main, e1, e2, e3, e4]
            exact Staged.step (fmt.Print_staged _ _) (main.afterDiscovery_staged env w)
          · simp only [main, e1, e2, e3, e4]
        | ok L =>
          have e4 : listNDSFiles env (main.afterHelperSetup env w) (str ".") =
              (.ok L, main.afterDiscovery env w) := Prod.ext h4 rfl
          refine Or.inr ?_
          by_cases hL : L = []
          · subst hL
            have hm : main env w =
                (0, fmt.Println (main.afterDiscovery env w) "Nothing to patch.") := by
              simp only [main, e1, e2, e3, e4, List.length_nil, if_true]
            refine Or.inl ⟨rfl, rfl, rfl, rfl, ?_, hm⟩
            rw [hm]
            exact Staged.step (fmt.Println_staged _ _) (main.afterDiscovery_staged env w)
          · refine Or.inr ?_
            have hm := main_eq_select env w L h1 h2 h3 h4 hL
            by_cases hv : ∃ k : Int, env.scan = .ok k ∧ 1 ≤ k ∧ k ≤ L.length
            · obtain ⟨k, hs, hk1, hk2⟩ := hv
              obtain ⟨hst, hcode⟩ :=
                main.select.staged_valid env L (main.afterDiscovery env w) k hs hk1 hk2
              refine Or.inr ⟨rfl, rfl, rfl, ⟨L, rfl, hL, k, hs, hk1, hk2⟩, ?_, ?_⟩
              · rw [hm]
                exact (main.afterDiscovery_staged env w).trans hst
              · rw [hm]
                exact hcode
            · obtain ⟨hinv, hst⟩ :=
                main.select.staged_invalid env L (main.afterDiscovery env w) hv
              refine Or.inl ⟨rfl, rfl, rfl, ⟨L, rfl, hL, hv, by rw [hm, hinv]⟩, ?_⟩
              rw [hm]
              exact (main.afterDiscovery_staged env w).trans hst

/-! ## C9: the order of the stages -/

theorem stageOf.mem {l : List Op} {op : Op} {st : Stage} {S : List Stage}
    (h : op ∈ l) (hs : stageOf op = some st) (hf : l.filterMap stageOf = S) : st ∈ S := by
  rw [← hf]
  exact List.mem_filterMap.mpr ⟨op, h, hs⟩

theorem stageOf.helper_mem {l : List Op} {S : List Stage}
    (hf : l.filterMap stageOf = S) (h : Stage.HelperSetup ∈ S) :
    Op.call .ensurePatcherExists ∈ l := by
  rw [← hf] at h
  obtain ⟨op, hop, hs⟩ := List.mem_filterMap.mp h
  have : op = .call .ensurePatcherExists := by
    cases op with
    | call fn => cases fn <;> simp_all [stageOf]
    | _ => simp_all [stageOf]
  rw [← this]
  exact hop

theorem listNDSFiles.none_match (env : Env) (w : World) (directory : GoString)
    (E : List GoString) (hE : env.readDir w.fs directory = .ok E)
    (hnone : ∀ name ∈ E, ¬ str ".nds" <:+ name) :
    (listNDSFiles env w directory).1 = .ok [] := by
  have : E.filter (fun name => strings.HasSuffix name (str ".nds")) = [] := by
    rw [List.filter_eq_nil_iff]
    intro name hmem hsuf
    exact hnone name hmem ((strings.HasSuffix_iff _ _).mp hsuf)
  simp [listNDSFiles, ioutil.ReadDir, World.emit, hE, this]

/-- C9: the operations of a run open the stages RuntimeCheck, VersionCheck,
HelperSetup, Discovery, Selection, Patch in this order, each at most once and
none before an earlier one (the stages opened are a prefix of that list); a
stage is opened only if all earlier ones succeeded: the listing is called only
after the wine check, the version check and `ensurePatcherExists` have
succeeded.  When these three succeed and the current directory holds no name
ending in `.nds`, the run prints `Nothing to patch.` last and exits with code
0; the helper setup was run, the choice is not read and `patchGame` is not
called. -/
theorem main_stage_order (env : Env) (w : World) :
    ∃ l, (main env w).2.log = w.log ++ l ∧
      l.filterMap stageOf <+:
        [.RuntimeCheck, .VersionCheck, .HelperSetup, .Discovery, .Selection, .Patch] ∧
      (Op.call .checkVersion ∈ l → (isWineInstalled env w).1 = true) ∧
      (Op.call .ensurePatcherExists ∈ l →
        (isWineInstalled env w).1 = true ∧
        (checkVersion env (main.afterRuntimeCheck env w)).1 = true) ∧
      (Op.call .listNDSFiles ∈ l →
        (isWineInstalled env w).1 = true ∧
        (checkVersion env (main.afterRuntimeCheck env w)).1 = true ∧
        (ensurePatcherExists env (main.afterVersionCheck env w)).1 = none) ∧
      (Op.scan ∈ l →
        Op.call .listNDSFiles ∈ l ∧
        ∃ L, (listNDSFiles env (main.afterHelperSetup env w) (str ".")).1 = .ok L ∧ L ≠ []) ∧
      (Op.call .patchGame ∈ l →
        Op.scan ∈ l ∧
        ∃ L, (listNDSFiles env (main.afterHelperSetup env w) (str ".")).1 = .ok L ∧
          ∃ k : Int, env.scan = .ok k ∧ 1 ≤ k ∧ k ≤ L.length) ∧
      ((isWineInstalled env w).1 = true →
        (checkVersion env (main.afterRuntimeCheck env w)).1 = true →
        (ensurePatcherExists env (main.afterVersionCheck env w)).1 = none →
        ∀ E, env.readDir (main.afterHelperSetup env w).fs (str ".") = .ok E →
          (∀ name ∈ E, ¬ str ".nds" <:+ name) →
          main env w = (0, fmt.Println (main.afterDiscovery env w) "Nothing to patch.") ∧
          l.filterMap stageOf = [.RuntimeCheck, .VersionCheck, .HelperSetup, .Discovery] ∧
          Op.call .ensurePatcherExists ∈ l ∧ Op.scan ∉ l ∧ Op.call .patchGame ∉ l) := by
  rcases main_trace env w with
    ⟨h1, ⟨l, hl, hf⟩, _⟩ | ⟨h1, h2, ⟨l, hl, hf⟩, _⟩ | ⟨h1, h2, ⟨err, h3⟩, ⟨l, hl, hf⟩, _⟩ |
    ⟨h1, h2, h3, ⟨err, h4⟩, ⟨l, hl, hf⟩, _⟩ | ⟨h1, h2, h3, h4, ⟨l, hl, hf⟩, hm⟩ |
    ⟨h1, h2, h3, ⟨L, h4, hL, hv, hm⟩, ⟨l, hl, hf⟩⟩ |
    ⟨h1, h2, h3, ⟨L, h4, hL, k, hs, hk1, hk2⟩, ⟨l, hl, hf⟩, _⟩
  · refine ⟨l, hl, (by rw [hf]; exact ⟨_, rfl⟩), ?_, ?_, ?_, ?_, ?_, ?_⟩
    · exact fun h => absurd (stageOf.mem h rfl hf) (by decide)
    · exact fun h => absurd (stageOf.mem h rfl hf) (by decide)
    · exact fun h => absurd (stageOf.mem h rfl hf) (by decide)
    · exact fun h => absurd (stageOf.mem h rfl hf) (by decide)
    · exact fun h => absurd (stageOf.mem h rfl hf) (by decide)
    · intro h1'
      rw [h1] at h1'
      cases h1'
  · refine ⟨l, hl, (by rw [hf]; exact ⟨_, rfl⟩), fun _ => h1, ?_, ?_, ?_, ?_, ?_⟩
    · exact fun h => absurd (stageOf.mem h rfl hf) (by decide)
    · exact fun h => absurd (stageOf.mem h rfl hf) (by decide)
    · exact fun h => absurd (stageOf.mem h rfl hf) (by decide)
    · exact fun h => absurd (stageOf.mem h rfl hf) (by decide)
    · intro _ h2'
      rw [h2] at h2'
      cases h2'
  · refine ⟨l, hl, (by rw [hf]; exact ⟨_, rfl⟩), fun _ => h1, fun _ => ⟨h1, h2⟩, ?_, ?_, ?_, ?_⟩
    · exact fun h => absurd (stageOf.mem h rfl hf) (by decide)
    · exact fun h => absurd (stageOf.mem h rfl hf) (by decide)
    · exact fun h => absurd (stageOf.mem h rfl hf) (by decide)
    · intro _ _ h3'
      rw [h3] at h3'
      cases h3'
  · refine ⟨l, hl, (by rw [hf]; exact ⟨_, rfl⟩), fun _ => h1, fun _ => ⟨h1, h2⟩, fun _ => ⟨h1, h2, h3⟩,
      ?_, ?_, ?_⟩
    · exact fun h => absurd (stageOf.mem h rfl hf) (by decide)
    · exact fun h => absurd (stageOf.mem h rfl hf) (by decide)
    · intro _ _ _ E hE hnone
      have hz := listNDSFiles.none_match env (main.afterHelperSetup env w) (str ".") E hE hnone
      rw [h4] at hz
      cases hz
  · refine ⟨l, hl, (by rw [hf]; exact ⟨_, rfl⟩), fun _ => h1, fun _ => ⟨h1, h2⟩, fun _ => ⟨h1, h2, h3⟩,
      ?_, ?_, ?_⟩
    · exact fun h => absurd (stageOf.mem h rfl hf) (by decide)
    · exact fun h => absurd (stageOf.mem h rfl hf) (by decide)
    · intro _ _ _ E _ _
      exact ⟨hm, hf, stageOf.helper_mem hf (by decide),
        fun h => absurd (stageOf.mem h rfl hf) (by decide),
        fun h => absurd (stageOf.mem h rfl hf) (by decide)⟩
  · have hlist : Op.call .listNDSFiles ∈ l := by
      have : Stage.Discovery ∈ l.filterMap stageOf := by rw [hf]; decide
      obtain ⟨op, hop, hso⟩ := List.mem_filterMap.mp this
      have : op = .call .listNDSFiles := by
        cases op with
        | call fn => cases fn <;> simp_all [stageOf]
        | _ => simp_all [stageOf]
      rw [← this]
      exact hop
    refine ⟨l, hl, (by rw [hf]; exact ⟨_, rfl⟩), fun _ => h1, fun _ => ⟨h1, h2⟩, fun _ => ⟨h1, h2, h3⟩,
      fun _ => ⟨hlist, L, h4, hL⟩, ?_, ?_⟩
    · exact fun h => absurd (stageOf.mem h rfl hf) (by decide)
    · intro _ _ _ E hE hnone
      have hz := listNDSFiles.none_match env (main.afterHelperSetup env w) (str ".") E hE hnone
      rw [h4] at hz
      injection hz with hz
      exact absurd hz hL
  · have hlist : Op.call .listNDSFiles ∈ l := by
      have : Stage.Discovery ∈ l.filterMap stageOf := by rw [hf]; decide
      obtain ⟨op, hop, hso⟩ := List.mem_filterMap.mp this
      have : op = .call .listNDSFiles := by
        cases op with
        | call fn => cases fn <;> simp_all [stageOf]
        | _ => simp_all [stageOf]
      rw [← this]
      exact hop
    have hscan : Op.scan ∈ l := by
      have : Stage.Selection ∈ l.filterMap stageOf := by rw [hf]; decide
      obtain ⟨op, hop, hso⟩ := List.mem_filterMap.mp this
      have : op = .scan := by
        cases op with
        | call fn => cases fn <;> simp_all [stageOf]
        | _ => simp_all [stageOf]
      rw [← this]
      exact hop
    refine ⟨l, hl, (by rw [hf]), fun _ => h1, fun _ => ⟨h1, h2⟩, fun _ => ⟨h1, h2, h3⟩,
      fun _ => ⟨hlist, L, h4, hL⟩, fun _ => ⟨hscan, L, h4, k, hs, hk1, hk2⟩, ?_⟩
    intro _ _ _ E hE hnone
    have hz := listNDSFiles.none_match env (main.afterHelperSetup env w) (str ".") E hE hnone
    rw [h4] at hz
    injection hz with hz
    exact absurd hz hL

/-- C9 in a directory without candidates: the three setup stages succeed, the
listing is empty, and the run ends with `Nothing to patch.` and exit code 0
after the helper setup has run. -/
theorem main_stage_order_witness :
    ∃ l, (main Env.calm World.installed).2.log = World.installed.log ++ l ∧
      main Env.calm World.installed =
        (0, fmt.Println (main.afterDiscovery Env.calm World.installed) "Nothing to patch.") ∧
      l.filterMap stageOf = [.RuntimeCheck, .VersionCheck, .HelperSetup, .Discovery] ∧
      Op.call .ensurePatcherExists ∈ l ∧ Op.scan ∉ l ∧ Op.call .patchGame ∉ l := by
  obtain ⟨l, hl, -, -, -, -, -, -, hz⟩ := main_stage_order Env.calm World.installed
  exact ⟨l, hl, hz rfl (by decide) (by decide) [] rfl (by simp)⟩

/-! ## C2: the exit code after an invalid choice -/

/-- C2, evaluated where the code departs from it: with the helper installed and
three candidates listed, the inputs `0`, `-1`, `4` and an input that is not a
number all end with `Invalid choice.` as the last output, and the exit code of
the run is 0 (`main` returns), not 1. -/
theorem main_invalid_choice_exit_code :
    ((main (Env.choose (.ok 0)) World.installed).1 = 0 ∧
      (main (Env.choose (.ok 0)) World.installed).2.log.getLast? =
        some (.print (str "Invalid choice.\n"))) ∧
    ((main (Env.choose (.ok (-1))) World.installed).1 = 0 ∧
      (main (Env.choose (.ok (-1))) World.installed).2.log.getLast? =
        some (.print (str "Invalid choice.\n"))) ∧
    ((main (Env.choose (.ok 4)) World.installed).1 = 0 ∧
      (main (Env.choose (.ok 4)) World.installed).2.log.getLast? =
        some (.print (str "Invalid choice.\n"))) ∧
    ((main (Env.choose (.error (str "expected integer"))) World.installed).1 = 0 ∧
      (main (Env.choose (.error (str "expected integer"))) World.installed).2.log.getLast? =
        some (.print (str "Invalid choice.\n"))) := by
  decide

/-! ## What the operations leave in place -/

theorem Keeps.same (q : GoString) (w : World) : Keeps q w w := rfl

theorem Keeps.next {q : GoString} {w w1 w2 : World}
    (h2 : Keeps q w1 w2) (h1 : Keeps q w w1) : Keeps q w w2 :=
  Eq.trans h2 h1

theorem Keeps.from_eq {α : Type} {q : GoString} {x : α × World} {r : α} {w w1 : World}
    (heq : x = (r, w1)) (h : Keeps q w x.2) : Keeps q w w1 := by
  subst heq; exact h

theorem World.emit_keeps (q : GoString) (w : World) (op : Op) : Keeps q w (w.emit op) := rfl

theorem fmt.Println_keeps (q : GoString) (w : World) (s : String) :
    Keeps q w (fmt.Println w s) := rfl

theorem os.Stat_keeps (q : GoString) (w : World) (p : GoString) :
    Keeps q w (os.Stat w p).2 := rfl

theorem http.Get_keeps (q : GoString) (env : Env) (w : World) (url : GoString) :
    Keeps q w (http.Get env w url).2 := rfl

theorem FS.set_other (fs : FS) (p q : GoString) (n : Option Node) (h : q ≠ p) :
    fs.set p n q = fs q := by
  simp [FS.set, h]

theorem FS.append_other (fs : FS) (p q bytes : GoString) (h : q ≠ p) :
    fs.append p bytes q = fs q := by
  unfold FS.append
  cases hp : fs p with
  | none => rfl
  | some n =>
    cases n with
    | file c => exact FS.set_other _ _ _ _ h
    | dir => rfl

theorem os.MkdirAll_keeps (q : GoString) (env : Env) (w : World) (p : GoString)
    (h : q ≠ filepath.Clean p) : Keeps q w (os.MkdirAll env w p).2 := by
  unfold os.MkdirAll Keeps
  dsimp only
  repeat' split
  all_goals first | rfl | exact FS.set_other _ _ _ _ h

theorem os.Create_keeps (q : GoString) (env : Env) (w : World) (p : GoString)
    (h : q ≠ filepath.Clean p) : Keeps q w (os.Create env w p).2 := by
  unfold os.Create Keeps
  dsimp only
  repeat' split
  all_goals first | rfl | exact FS.set_other _ _ _ _ h

theorem io.Copy_keeps (q : GoString) (env : Env) (w : World) (p : GoString) (src : Stream)
    (h : q ≠ filepath.Clean p) : Keeps q w (io.Copy env w p src).2 := by
  unfold io.Copy Keeps
  repeat' split
  all_goals exact FS.append_other _ _ _ _ h

theorem os.Remove_keeps (q : GoString) (env : Env) (w : World) (p : GoString)
    (h : q ≠ filepath.Clean p) : Keeps q w (os.Remove env w p).2 := by
  unfold os.Remove Keeps
  dsimp only
  repeat' split
  all_goals first | rfl | exact FS.set_other _ _ _ _ h

theorem downloadFile_keeps (q : GoString) (env : Env) (w : World) (url dest : GoString)
    (h : q ≠ filepath.Clean dest) : Keeps q w (downloadFile env w url dest).2 := by
  unfold downloadFile
  dsimp only
  repeat' split
  all_goals
    repeat
      first
      | exact World.emit_keeps _ _ _
      | refine Keeps.next (io.Copy_keeps _ _ _ _ _ h) ?_
      | refine Keeps.next (Keeps.from_eq (by assumption) (http.Get_keeps _ _ _ _)) ?_
      | refine Keeps.next (Keeps.from_eq (by assumption) (os.Create_keeps _ _ _ _ h)) ?_

/-! ## What a successful or failed operation has done -/

theorem os.Create_ok (env : Env) (w : World) (p : GoString)
    (h : (os.Create env w p).1 = none) :
    (os.Create env w p).2.fs (filepath.Clean p) = some (.file []) := by
  unfold os.Create at h ⊢
  dsimp only at h ⊢
  repeat' split at h
  all_goals simp_all [FS.set, World.emit]

theorem os.Create_failed (env : Env) (w : World) (p : GoString)
    (h : (os.Create env w p).1 ≠ none) : (os.Create env w p).2.fs = w.fs := by
  unfold os.Create at h ⊢
  dsimp only at h ⊢
  repeat' split at h
  all_goals first | exact absurd rfl h | skip
  all_goals simp_all [World.emit]

theorem io.Copy_file (env : Env) (w : World) (p c : GoString) (src : Stream)
    (h : w.fs (filepath.Clean p) = some (.file c)) :
    ∃ c', (io.Copy env w p src).2.fs (filepath.Clean p) = some (.file c') := by
  unfold io.Copy
  repeat' split
  all_goals simp [FS.append, FS.set, h]

theorem io.Copy_log (env : Env) (w : World) (p : GoString) (src : Stream) :
    ∃ bytes, (io.Copy env w p src).2.log = w.log ++ [.write p bytes] := by
  unfold io.Copy
  repeat' split
  all_goals exact ⟨_, rfl⟩

/-! ## `extractFileFromZip`: what it leaves and what it creates -/

theorem os.Create_log (env : Env) (w : World) (p : GoString) :
    (os.Create env w p).2.log = w.log ++ [.create p] := by
  unfold os.Create
  dsimp only
  repeat' split
  all_goals rfl

theorem zip.OpenReader_log (env : Env) (w : World) (p : GoString) :
    (zip.OpenReader env w p).2.log = w.log ++ [.openZip p] := by
  unfold zip.OpenReader
  dsimp only
  repeat' split
  all_goals rfl

theorem os.Remove_log (env : Env) (w : World) (p : GoString) :
    (os.Remove env w p).2.log = w.log ++ [.remove p] := by
  unfold os.Remove
  dsimp only
  repeat' split
  all_goals rfl

theorem extractFileFromZip.loop_unwritten (env : Env) (targetFile outputPath : GoString)
    (files : List ZipFile) (w : World)
    (h : ∀ l bytes,
      (extractFileFromZip.loop env targetFile outputPath files w).2.log = w.log ++ l →
      Op.write outputPath bytes ∉ l) :
    (extractFileFromZip.loop env targetFile outputPath files w).2.fs = w.fs := by
  induction files with
  | nil => rfl
  | cons f rest ih =>
    unfold extractFileFromZip.loop at h ⊢
    by_cases hn : f.Name = targetFile
    · rw [if_pos hn] at h ⊢
      cases ho : f.Open with
      | error err => rfl
      | ok rc =>
        simp only [ho] at h ⊢
        cases hc : (os.Create env (w.emit (.openEntry f.Name)) outputPath).1 with
        | some err =>
          have e : os.Create env (w.emit (.openEntry f.Name)) outputPath =
              (some err, (os.Create env (w.emit (.openEntry f.Name)) outputPath).2) :=
            Prod.ext hc rfl
          rw [e]
          exact os.Create_failed env _ _ (by rw [hc]; simp)
        | none =>
          have e : os.Create env (w.emit (.openEntry f.Name)) outputPath =
              (none, (os.Create env (w.emit (.openEntry f.Name)) outputPath).2) :=
            Prod.ext hc rfl
          rw [e] at h
          exfalso
          obtain ⟨bytes, hb⟩ := io.Copy_log env
            (os.Create env (w.emit (.openEntry f.Name)) outputPath).2 outputPath rc
          refine h [.openEntry f.Name, .create outputPath, .write outputPath bytes] bytes ?_
            (by simp)
          simp only []
          split <;> rename_i heq <;>
            · have := congrArg (fun x => x.2.log) heq
              simp only [hb, os.Create_log] at this
              rw [← this]
              simp [World.emit]
    · rw [if_neg hn] at h ⊢
      exact ih h

theorem zip.OpenReader_fs (env : Env) (w : World) (p : GoString) :
    (zip.OpenReader env w p).2.fs = w.fs := by
  unfold zip.OpenReader
  dsimp only
  repeat' split
  all_goals rfl

theorem extractFileFromZip_unwritten (env : Env) (w : World)
    (zipPath targetFile outputPath : GoString)
    (h : ∀ l bytes,
      (extractFileFromZip env w zipPath targetFile outputPath).2.log = w.log ++ l →
      Op.write outputPath bytes ∉ l) :
    (extractFileFromZip env w zipPath targetFile outputPath).2.fs = w.fs := by
  unfold extractFileFromZip at h ⊢
  dsimp only at h ⊢
  cases ho : zip.OpenReader env (w.emit (.call .extractFileFromZip)) zipPath with
  | mk r w1 =>
    have hw1 : w1.fs = w.fs := by
      have := zip.OpenReader_fs env (w.emit (.call .extractFileFromZip)) zipPath
      rw [ho] at this
      exact this
    have hl1 : w1.log = w.log ++ [.call .extractFileFromZip, .openZip zipPath] := by
      have := zip.OpenReader_log env (w.emit (.call .extractFileFromZip)) zipPath
      rw [ho] at this
      rw [this]
      simp [World.emit]
    rw [ho] at h
    cases r with
    | error err => exact hw1
    | ok files =>
      refine (extractFileFromZip.loop_unwritten env _ _ files w1 ?_).trans hw1
      intro l bytes hl hmem
      refine h ([.call .extractFileFromZip, .openZip zipPath] ++ l) bytes ?_
        (List.mem_append_right _ hmem)
      simp only []
      rw [hl, hl1, List.append_assoc]

theorem extractFileFromZip.loop_created (env : Env) (targetFile outputPath : GoString)
    (files : List ZipFile) (w : World)
    (h : (extractFileFromZip.loop env targetFile outputPath files w).1 = none) :
    ∃ c, (extractFileFromZip.loop env targetFile outputPath files w).2.fs
      (filepath.Clean outputPath) = some (.file c) := by
  induction files with
  | nil => cases h
  | cons f rest ih =>
    unfold extractFileFromZip.loop at h ⊢
    by_cases hn : f.Name = targetFile
    · rw [if_pos hn] at h ⊢
      cases ho : f.Open with
      | error err => rw [ho] at h; cases h
      | ok rc =>
        simp only [ho] at h ⊢
        cases hc : (os.Create env (w.emit (.openEntry f.Name)) outputPath).1 with
        | some err =>
          have e : os.Create env (w.emit (.openEntry f.Name)) outputPath =
              (some err, (os.Create env (w.emit (.openEntry f.Name)) outputPath).2) :=
            Prod.ext hc rfl
          rw [e] at h
          cases h
        | none =>
          have e : os.Create env (w.emit (.openEntry f.Name)) outputPath =
              (none, (os.Create env (w.emit (.openEntry f.Name)) outputPath).2) :=
            Prod.ext hc rfl
          rw [e]
          obtain ⟨c, hcp⟩ := io.Copy_file env _ outputPath [] rc (os.Create_ok env _ _ hc)
          refine ⟨c, ?_⟩
          simp only []
          split <;> rename_i heq <;>
            · have := congrArg (fun x => x.2.fs (filepath.Clean outputPath)) heq
              simp only [hcp] at this
              exact this.symm
    · rw [if_neg hn] at h ⊢
      exact ih h

theorem extractFileFromZip_created (env : Env) (w : World)
    (zipPath targetFile outputPath : GoString)
    (h : (extractFileFromZip env w zipPath targetFile outputPath).1 = none) :
    ∃ c, (extractFileFromZip env w zipPath targetFile outputPath).2.fs
      (filepath.Clean outputPath) = some (.file c) := by
  unfold extractFileFromZip at h ⊢
  dsimp only at h ⊢
  cases ho : zip.OpenReader env (w.emit (.call .extractFileFromZip)) zipPath with
  | mk r w1 =>
    rw [ho] at h
    cases r with
    | error err => cases h
    | ok files => exact extractFileFromZip.loop_created env _ _ files w1 h

/-! ## C7: the helper setup is idempotent -/

theorem helperPath_clean :
    filepath.Clean helperPath = helperPath ∧
      filepath.Clean (str "./patcher/helper.exe") = helperPath ∧
      helperPath ≠ filepath.Clean patcherDir ∧ helperPath ≠ filepath.Clean zipPath := by
  decide

theorem ensurePatcherExists_present (env : Env) (w : World)
    (h : (w.fs helperPath).isSome = true) :
    ensurePatcherExists env w =
      (none, ⟨w.fs, w.log ++ [.call .ensurePatcherExists, .stat helperPath]⟩) := by
  unfold ensurePatcherExists os.Stat
  simp [World.emit, helperPath_clean.1, h]

theorem ensurePatcherExists_installs (env : Env) (w : World)
    (h : (ensurePatcherExists env w).1 = none) :
    ((ensurePatcherExists env w).2.fs helperPath).isSome = true := by
  unfold ensurePatcherExists at h ⊢
  dsimp only at h ⊢
  split at h
  · rename_i w1 hs
    have h1 := congrArg Prod.fst hs
    have h2 := congrArg (fun x => x.2.fs) hs
    simp only [os.Stat, World.emit, helperPath_clean.1] at h1 h2
    rw [← h2]
    exact h1
  · rename_i w1 hs
    split at h
    · simp at h
    · rename_i w2 hm
      split at h
      · simp at h
      · rename_i w3 hd
        split at h
        · simp at h
        · rename_i w4 he
          have hk : Keeps helperPath w4
              (os.Remove env (fmt.Println w4 "Patcher successfully set up.") zipPath).2 :=
            Keeps.next (os.Remove_keeps _ _ _ _ helperPath_clean.2.2.2)
              (fmt.Println_keeps _ _ _)
          rw [hk]
          obtain ⟨c, hc⟩ := extractFileFromZip_created env w3 zipPath (str "WfcPatcher.exe")
            helperPath (by rw [he])
          rw [he, helperPath_clean.1] at hc
          rw [hc]
          rfl

/-- C7: when something exists at `./patcher/helper.exe`, `ensurePatcherExists`
returns success at once: the file system is unchanged and the only operation
is the `os.Stat` of the helper path (no request, no directory or file created,
written, extracted or removed).  Hence after one successful call a second
call, in any environment, changes nothing either. -/
theorem ensurePatcherExists_idempotent (env : Env) (w : World) :
    ((w.fs (filepath.Clean (str "./patcher/helper.exe"))).isSome = true →
      ensurePatcherExists env w =
        (none, ⟨w.fs, w.log ++ [.call .ensurePatcherExists, .stat helperPath]⟩)) ∧
    ((ensurePatcherExists env w).1 = none →
      ∀ env' : Env,
        ensurePatcherExists env' (ensurePatcherExists env w).2 =
          (none, ⟨(ensurePatcherExists env w).2.fs,
            (ensurePatcherExists env w).2.log ++
              [.call .ensurePatcherExists, .stat helperPath]⟩)) := by
  constructor
  · intro h
    rw [helperPath_clean.2.1] at h
    exact ensurePatcherExists_present env w h
  · intro h env'
    exact ensurePatcherExists_present env' _ (ensurePatcherExists_installs env w h)

/-- C7 with the helper installed, and after a first call that installs it. -/
theorem ensurePatcherExists_idempotent_witness :
    ensurePatcherExists Env.calm World.installed =
        (none, ⟨World.installed.fs,
          World.installed.log ++ [.call .ensurePatcherExists, .stat helperPath]⟩) ∧
      ∀ env' : Env,
        ensurePatcherExists env' (ensurePatcherExists Env.release World.empty).2 =
          (none, ⟨(ensurePatcherExists Env.release World.empty).2.fs,
            (ensurePatcherExists Env.release World.empty).2.log ++
              [.call .ensurePatcherExists, .stat helperPath]⟩) :=
  ⟨(ensurePatcherExists_idempotent Env.calm World.installed).1 (by decide),
   (ensurePatcherExists_idempotent Env.release World.empty).2 (by decide)⟩

/-! ## C10: what a failed helper setup leaves behind -/

theorem os.MkdirAll_log (env : Env) (w : World) (p : GoString) :
    (os.MkdirAll env w p).2.log = w.log ++ [.mkdirAll p] := by
  unfold os.MkdirAll
  dsimp only
  repeat' split
  all_goals rfl

theorem Staged.log_mem {s : List Stage} {w w' : World} {op : Op}
    (h : Staged s w w') (hop : op ∈ w.log) : op ∈ w'.log := by
  obtain ⟨l, hl, _⟩ := h
  rw [hl]
  exact List.mem_append_left _ hop

theorem ensurePatcherExists_retries (env : Env) (w : World) (habs : w.fs helperPath = none) :
    ∃ rest, (ensurePatcherExists env w).2.log =
      w.log ++ [.call .ensurePatcherExists, .stat helperPath,
        .print (str "Patcher not found. Downloading and setting it up...\n"),
        .mkdirAll patcherDir] ++ rest := by
  have hs : os.Stat (w.emit (.call .ensurePatcherExists)) helperPath =
      (false, (w.emit (.call .ensurePatcherExists)).emit (.stat helperPath)) := by
    simp [os.Stat, World.emit, helperPath_clean.1, habs]
  have hstart : Staged []
      (os.MkdirAll env (fmt.Println ((w.emit (.call .ensurePatcherExists)).emit
          (.stat helperPath)) "Patcher not found. Downloading and setting it up...")
        patcherDir).2
      (ensurePatcherExists env w).2 := by
    unfold ensurePatcherExists
    dsimp only
    rw [hs]
    dsimp only
    repeat' split
    all_goals
      repeat
        first
        | exact Staged.of_eq (by assumption) (Staged.refl _)
        | refine Staged.step (fmt.Println_staged _ _) ?_
        | refine Staged.step (os.Remove_staged _ _ _) ?_
        | refine Staged.step (Staged.of_eq (by assumption) (downloadFile_staged _ _ _ _)) ?_
        | refine Staged.step
            (Staged.of_eq (by assumption) (extractFileFromZip_staged _ _ _ _ _)) ?_
  obtain ⟨l, hl, _⟩ := hstart
  refine ⟨l, ?_⟩
  rw [hl, os.MkdirAll_log]
  simp [fmt.Println, fmt.Print, World.emit, str]

theorem ensurePatcherExists_error_absent (env : Env) (w : World)
    (habs : w.fs helperPath = none)
    (herr : (ensurePatcherExists env w).1 ≠ none)
    (hnocopy : ∀ l bytes, (ensurePatcherExists env w).2.log = w.log ++ l →
      Op.write helperPath bytes ∉ l) :
    (ensurePatcherExists env w).2.fs helperPath = none := by
  unfold ensurePatcherExists at herr hnocopy ⊢
  dsimp only at herr hnocopy ⊢
  split at herr
  · exact absurd rfl herr
  · rename_i w1 hs
    have k1 : Keeps helperPath w w1 :=
      Keeps.next (Keeps.from_eq hs (os.Stat_keeps _ _ _)) (World.emit_keeps _ _ _)
    split at herr
    · rename_i err w2 hm
      have k2 : Keeps helperPath w w2 :=
        Keeps.next (Keeps.from_eq hm (os.MkdirAll_keeps _ _ _ _ helperPath_clean.2.2.1))
          (Keeps.next (fmt.Println_keeps _ _ _) k1)
      exact k2.trans habs
    · rename_i w2 hm
      have k2 : Keeps helperPath w w2 :=
        Keeps.next (Keeps.from_eq hm (os.MkdirAll_keeps _ _ _ _ helperPath_clean.2.2.1))
          (Keeps.next (fmt.Println_keeps _ _ _) k1)
      split at herr
      · rename_i err w3 hd
        have k3 : Keeps helperPath w w3 :=
          Keeps.next (Keeps.from_eq hd (downloadFile_keeps _ _ _ _ _ helperPath_clean.2.2.2)) k2
        exact k3.trans habs
      · rename_i w3 hd
        have k3 : Keeps helperPath w w3 :=
          Keeps.next (Keeps.from_eq hd (downloadFile_keeps _ _ _ _ _ helperPath_clean.2.2.2)) k2
        split at herr
        · rename_i err w4 he
          simp only [hs, hm, hd, he] at hnocopy
          have hst3 : Staged [.HelperSetup] w w3 :=
            Staged.step (Staged.of_eq hd (downloadFile_staged _ _ _ _))
              (Staged.step (Staged.of_eq hm (os.MkdirAll_staged _ _ _))
                (Staged.step (fmt.Println_staged _ _)
                  (Staged.step (Staged.of_eq hs (os.Stat_staged _ _))
                    (Staged.emit_stage _ _ _ rfl))))
          obtain ⟨l0, hl0, _⟩ := hst3
          have hno : ∀ l bytes,
              (extractFileFromZip env w3 zipPath (str "WfcPatcher.exe") helperPath).2.log =
                w3.log ++ l →
              Op.write helperPath bytes ∉ l := by
            intro l bytes hl hmem
            rw [he] at hl
            refine hnocopy (l0 ++ l ++ [.remove zipPath]) bytes ?_
              (List.mem_append_left _ (List.mem_append_right _ hmem))
            rw [os.Remove_log, hl, hl0]
            simp
          have hfs := extractFileFromZip_unwritten env w3 zipPath (str "WfcPatcher.exe")
            helperPath hno
          rw [he] at hfs
          have k4 : Keeps helperPath w w4 := (congrFun hfs helperPath).trans k3
          exact (Keeps.next (os.Remove_keeps _ _ _ _ helperPath_clean.2.2.2) k4).trans habs
        · exact absurd rfl herr

/-- C10, amended: when nothing exists at `./patcher/helper.exe` and
`ensurePatcherExists` returns an error without having called `io.Copy` on the
helper file, that is when it fails at the directory creation, at the download,
at the opening of the archive, at the search of the entry, at the opening of
the entry or at the `os.Create` of the output, nothing exists at
`./patcher/helper.exe` afterwards, and a later call, in any environment, goes
past the presence check and starts the setup again: it prints the download
message and creates the directory.  `io.Copy` logs one `Op.write` each time it
is called, also when it fails before a byte is written, so the hypothesis
`hnocopy` (no `Op.write` on the helper among the operations of this call) says
that the copy was never started. -/
theorem ensurePatcherExists_failed (env : Env) (w : World)
    (habs : w.fs (filepath.Clean (str "./patcher/helper.exe")) = none)
    (herr : (ensurePatcherExists env w).1 ≠ none)
    (hnocopy : ∀ l bytes, (ensurePatcherExists env w).2.log = w.log ++ l →
      Op.write helperPath bytes ∉ l) :
    (ensurePatcherExists env w).2.fs (filepath.Clean (str "./patcher/helper.exe")) = none ∧
      ∀ env' : Env, ∃ rest,
        (ensurePatcherExists env' (ensurePatcherExists env w).2).2.log =
          (ensurePatcherExists env w).2.log ++
            [.call .ensurePatcherExists, .stat helperPath,
              .print (str "Patcher not found. Downloading and setting it up...\n"),
              .mkdirAll patcherDir] ++ rest := by
  rw [helperPath_clean.2.1] at habs ⊢
  have hafter := ensurePatcherExists_error_absent env w habs herr hnocopy
  exact ⟨hafter, fun env' => ensurePatcherExists_retries env' _ hafter⟩

/-- C10, amended, when the download fails and when the output cannot be
created: nothing is left at the helper path and the next call starts the setup
again. -/
theorem ensurePatcherExists_failed_witness :
    ((ensurePatcherExists Env.offline World.empty).2.fs
        (filepath.Clean (str "./patcher/helper.exe")) = none ∧
      ∀ env' : Env, ∃ rest,
        (ensurePatcherExists env' (ensurePatcherExists Env.offline World.empty).2).2.log =
          (ensurePatcherExists Env.offline World.empty).2.log ++
            [.call .ensurePatcherExists, .stat helperPath,
              .print (str "Patcher not found. Downloading and setting it up...\n"),
              .mkdirAll patcherDir] ++ rest) ∧
    ((ensurePatcherExists Env.readOnly World.empty).2.fs
        (filepath.Clean (str "./patcher/helper.exe")) = none ∧
      ∀ env' : Env, ∃ rest,
        (ensurePatcherExists env' (ensurePatcherExists Env.readOnly World.empty).2).2.log =
          (ensurePatcherExists Env.readOnly World.empty).2.log ++
            [.call .ensurePatcherExists, .stat helperPath,
              .print (str "Patcher not found. Downloading and setting it up...\n"),
              .mkdirAll patcherDir] ++ rest) := by
  have hlog : (ensurePatcherExists Env.offline World.empty).2.log =
      [.call .ensurePatcherExists, .stat helperPath,
        .print (str "Patcher not found. Downloading and setting it up...\n"),
        .mkdirAll patcherDir, .call .downloadFile, .httpGet patcherDownloadURL] := by
    decide
  have hlog2 : (ensurePatcherExists Env.readOnly World.empty).2.log =
      [.call .ensurePatcherExists, .stat helperPath,
        .print (str "Patcher not found. Downloading and setting it up...\n"),
        .mkdirAll patcherDir, .call .downloadFile, .httpGet patcherDownloadURL,
        .create zipPath, .write zipPath (str "PK"), .call .extractFileFromZip,
        .openZip zipPath, .openEntry (str "WfcPatcher.exe"), .create helperPath,
        .remove zipPath] := by
    decide
  refine ⟨ensurePatcherExists_failed Env.offline World.empty (by decide) (by decide) ?_,
    ensurePatcherExists_failed Env.readOnly World.empty (by decide) (by decide) ?_⟩
  · intro l bytes h
    rw [hlog] at h
    have hl : l = _ := h.symm
    subst hl
    simp
  · intro l bytes h
    rw [hlog2] at h
    have hl : l = _ := h.symm
    subst hl
    simp [zipPath, helperPath, filepath.Join, filepath.Clean, patcherDir, str]

/-- C10 as stated fails when the disk fills up while the helper is being
copied: the helper is absent before, `ensurePatcherExists` returns an
extraction error, yet a file with the one byte written exists at
`./patcher/helper.exe` afterwards, and the next call, in any environment,
returns success at once without setting anything up.  The same happens when
the copy fails before its first byte: the file created by `os.Create` stays,
empty. -/
theorem ensurePatcherExists_partial_helper :
    (World.empty.fs (filepath.Clean (str "./patcher/helper.exe")) = none ∧
      (ensurePatcherExists Env.diskFull World.empty).1 =
        some (str "error extracting WfcPatcher.exe: no space left on device") ∧
      (ensurePatcherExists Env.diskFull World.empty).2.fs
        (filepath.Clean (str "./patcher/helper.exe")) = some (.file (str "M")) ∧
      ∀ env' : Env,
        ensurePatcherExists env' (ensurePatcherExists Env.diskFull World.empty).2 =
          (none, ⟨(ensurePatcherExists Env.diskFull World.empty).2.fs,
            (ensurePatcherExists Env.diskFull World.empty).2.log ++
              [.call .ensurePatcherExists, .stat helperPath]⟩)) ∧
    ((ensurePatcherExists Env.diskFullAtOnce World.empty).1 =
        some (str "error extracting WfcPatcher.exe: no space left on device") ∧
      (ensurePatcherExists Env.diskFullAtOnce World.empty).2.fs
        (filepath.Clean (str "./patcher/helper.exe")) = some (.file []) ∧
      ∀ env' : Env,
        ensurePatcherExists env' (ensurePatcherExists Env.diskFullAtOnce World.empty).2 =
          (none, ⟨(ensurePatcherExists Env.diskFullAtOnce World.empty).2.fs,
            (ensurePatcherExists Env.diskFullAtOnce World.empty).2.log ++
              [.call .ensurePatcherExists, .stat helperPath]⟩)) :=
  ⟨⟨by decide, by decide, by decide,
      fun env' => ensurePatcherExists_present env' _ (by decide)⟩,
    ⟨by decide, by decide, fun env' => ensurePatcherExists_present env' _ (by decide)⟩⟩

/-! ## C8: where `patchGame` finds the result and what it does with it -/

theorem os.Rename_fs_only (env : Env) (w w' : World) (o n : GoString) (h : w.fs = w'.fs) :
    (os.Rename env w o n).1 = (os.Rename env w' o n).1 ∧
      (os.Rename env w o n).2.fs = (os.Rename env w' o n).2.fs := by
  unfold os.Rename
  simp only [World.emit, h]
  repeat' split
  all_goals simp_all

theorem os.Rename_failed (env : Env) (w : World) (o n : GoString)
    (h : (os.Rename env w o n).1 ≠ none) : (os.Rename env w o n).2.fs = w.fs := by
  unfold os.Rename at h ⊢
  simp only [World.emit] at h ⊢
  repeat' split at h
  all_goals first | exact absurd rfl h | rfl | simp_all

theorem os.Rename_moved (env : Env) (w : World) (o n : GoString)
    (h : (os.Rename env w o n).1 = none) (hne : filepath.Clean o ≠ filepath.Clean n) :
    (os.Rename env w o n).2.fs = w.fs.move (filepath.Clean o) (filepath.Clean n) := by
  unfold os.Rename at h ⊢
  simp only [World.emit] at h ⊢
  repeat' split at h
  all_goals first | (simp at h; done) | simp_all

theorem successBanner_fs (lines : List String) (w : World) :
    (lines.foldl fmt.Println w).fs = w.fs := by
  induction lines generalizing w with
  | nil => rfl
  | cons s rest ih => exact (ih _).trans rfl

theorem patchGame_after_run (env : Env) (w : World) (ndsFile : GoString)
    (hmk : (os.MkdirAll env (w.emit (.call .patchGame)) (str "./tmp")).1 = none)
    (hcp : (copyFile env (os.MkdirAll env (w.emit (.call .patchGame)) (str "./tmp")).2
      ndsFile tmpPath).1 = none)
    (hrun : (exec.Run env
      (copyFile env (os.MkdirAll env (w.emit (.call .patchGame)) (str "./tmp")).2
        ndsFile tmpPath).2
      [str "wine", str "./patcher/helper.exe", str "-d", str "d.errexe.xyz", tmpPath]).1 =
        none) :
    patchGame env w ndsFile =
      match patchGame.relocate env (patchGame.afterRun env w ndsFile) with
      | (some err, w) => (some err, w)
      | (none, w) => (none, successBanner.foldl fmt.Println w) := by
  have e1 : os.MkdirAll env (w.emit (.call .patchGame)) (str "./tmp") =
      (none, (os.MkdirAll env (w.emit (.call .patchGame)) (str "./tmp")).2) :=
    Prod.ext hmk rfl
  have e2 : copyFile env (os.MkdirAll env (w.emit (.call .patchGame)) (str "./tmp")).2
        ndsFile tmpPath =
      (none, (copyFile env (os.MkdirAll env (w.emit (.call .patchGame)) (str "./tmp")).2
        ndsFile tmpPath).2) :=
    Prod.ext hcp rfl
  have e3 : exec.Run env
        (copyFile env (os.MkdirAll env (w.emit (.call .patchGame)) (str "./tmp")).2
          ndsFile tmpPath).2
        [str "wine", str "./patcher/helper.exe", str "-d", str "d.errexe.xyz", tmpPath] =
      (none, patchGame.afterRun env w ndsFile) :=
    Prod.ext hrun rfl
  unfold patchGame
  dsimp only
  rw [e1]
  dsimp only
  rw [e2]
  dsimp only
  rw [e3]

theorem resultPaths :
    filepath.Clean (str "./tmp/" ++ outputFile) = str "tmp/game(d.errexe.xyz).nds" ∧
      filepath.Clean (str "./" ++ outputFile) = str "game(d.errexe.xyz).nds" ∧
      filepath.Clean (str "./output.nds") = str "output.nds" := by
  decide

theorem FS.move_from_tmp (fs : FS) :
    fs.move (str "tmp/game(d.errexe.xyz).nds") (str "output.nds") (str "output.nds") =
        fs (str "tmp/game(d.errexe.xyz).nds") ∧
      fs.move (str "tmp/game(d.errexe.xyz).nds") (str "output.nds")
        (str "game(d.errexe.xyz).nds") = fs (str "game(d.errexe.xyz).nds") ∧
      fs.move (str "tmp/game(d.errexe.xyz).nds") (str "output.nds")
        (str "tmp/game(d.errexe.xyz).nds") = none := by
  have b1 : FS.below (str "output.nds") (str "game(d.errexe.xyz).nds") = none := by decide
  have b2 : FS.below (str "tmp/game(d.errexe.xyz).nds") (str "game(d.errexe.xyz).nds") =
      none := by decide
  have b3 : FS.below (str "output.nds") (str "tmp/game(d.errexe.xyz).nds") = none := by decide
  have n1 : str "game(d.errexe.xyz).nds" ≠ str "output.nds" := by decide
  have n2 : str "game(d.errexe.xyz).nds" ≠ str "tmp/game(d.errexe.xyz).nds" := by decide
  have n3 : str "tmp/game(d.errexe.xyz).nds" ≠ str "output.nds" := by decide
  refine ⟨?_, ?_, ?_⟩
  · simp only [FS.move, if_true]
  · simp only [FS.move, if_neg n1, b1, if_neg n2, b2]
  · simp only [FS.move, if_neg n3, b3, if_true]

theorem FS.move_from_cwd (fs : FS) :
    fs.move (str "game(d.errexe.xyz).nds") (str "output.nds") (str "output.nds") =
        fs (str "game(d.errexe.xyz).nds") ∧
      fs.move (str "game(d.errexe.xyz).nds") (str "output.nds")
        (str "game(d.errexe.xyz).nds") = none := by
  have b3 : FS.below (str "output.nds") (str "game(d.errexe.xyz).nds") = none := by decide
  have n3 : str "game(d.errexe.xyz).nds" ≠ str "output.nds" := by decide
  refine ⟨?_, ?_⟩
  · simp only [FS.move, if_true]
  · simp only [FS.move, if_neg n3, b3, if_true]

theorem patchGame.relocate_tmp (env : Env) (w : World) (node : Node)
    (h : w.fs (str "tmp/game(d.errexe.xyz).nds") = some node) :
    ((os.Rename env w (str "./tmp/" ++ outputFile) (str "./output.nds")).1 = none →
      (patchGame.relocate env w).1 = none ∧
      (patchGame.relocate env w).2.fs =
        w.fs.move (str "tmp/game(d.errexe.xyz).nds") (str "output.nds")) ∧
    (∀ err, (os.Rename env w (str "./tmp/" ++ outputFile) (str "./output.nds")).1 = some err →
      (patchGame.relocate env w).1 = some (fmt.Errorf "Error moving patched file: " err) ∧
      (patchGame.relocate env w).2.fs = w.fs) := by
  have hcong := os.Rename_fs_only env (w.emit (.stat (str "./tmp/" ++ outputFile))) w
    (str "./tmp/" ++ outputFile) (str "./output.nds") rfl
  have hrel : patchGame.relocate env w =
      match os.Rename env (w.emit (.stat (str "./tmp/" ++ outputFile)))
          (str "./tmp/" ++ outputFile) (str "./output.nds") with
      | (some err, w) => (some (fmt.Errorf "Error moving patched file: " err), w)
      | (none, w) => (none, w) := by
    unfold patchGame.relocate os.Stat
    simp only [resultPaths.1, h, Option.isSome_some]
  constructor
  · intro hok
    rw [← hcong.1] at hok
    have hmv := os.Rename_moved env _ _ _ hok (by decide)
    rw [resultPaths.1, resultPaths.2.2] at hmv
    rw [hrel]
    split
    · rename_i heq
      rw [heq] at hok
      cases hok
    · rename_i heq
      rw [heq] at hmv
      exact ⟨rfl, hmv⟩
  · intro err herr
    rw [← hcong.1] at herr
    have hfs := os.Rename_failed env _ (str "./tmp/" ++ outputFile) (str "./output.nds")
      (by rw [herr]; simp)
    rw [hrel]
    split
    · rename_i heq
      rw [heq] at herr hfs
      simp only at herr
      cases herr
      exact ⟨rfl, hfs⟩
    · rename_i heq
      rw [heq] at herr
      cases herr

theorem patchGame.relocate_cwd (env : Env) (w : World) (node : Node)
    (hno : w.fs (str "tmp/game(d.errexe.xyz).nds") = none)
    (h : w.fs (str "game(d.errexe.xyz).nds") = some node) :
    ((os.Rename env w (str "./" ++ outputFile) (str "./output.nds")).1 = none →
      (patchGame.relocate env w).1 = none ∧
      (patchGame.relocate env w).2.fs =
        w.fs.move (str "game(d.errexe.xyz).nds") (str "output.nds")) ∧
    (∀ err, (os.Rename env w (str "./" ++ outputFile) (str "./output.nds")).1 = some err →
      (patchGame.relocate env w).1 = some (fmt.Errorf "Error moving patched file: " err) ∧
      (patchGame.relocate env w).2.fs = w.fs) := by
  have hcong := os.Rename_fs_only env
    ((w.emit (.stat (str "./tmp/" ++ outputFile))).emit (.stat (str "./" ++ outputFile))) w
    (str "./" ++ outputFile) (str "./output.nds") rfl
  have hrel : patchGame.relocate env w =
      match os.Rename env
          ((w.emit (.stat (str "./tmp/" ++ outputFile))).emit (.stat (str "./" ++ outputFile)))
          (str "./" ++ outputFile) (str "./output.nds") with
      | (some err, w) => (some (fmt.Errorf "Error moving patched file: " err), w)
      | (none, w) => (none, w) := by
    unfold patchGame.relocate os.Stat
    simp only [resultPaths.1, resultPaths.2.1, hno, h, World.emit, Option.isSome_some,
      Option.isSome_none]
  constructor
  · intro hok
    rw [← hcong.1] at hok
    have hmv := os.Rename_moved env _ _ _ hok (by decide)
    rw [resultPaths.2.1, resultPaths.2.2] at hmv
    rw [hrel]
    split
    · rename_i heq
      rw [heq] at hok
      cases hok
    · rename_i heq
      rw [heq] at hmv
      exact ⟨rfl, hmv⟩
  · intro err herr
    rw [← hcong.1] at herr
    have hfs := os.Rename_failed env _ (str "./" ++ outputFile) (str "./output.nds")
      (by rw [herr]; simp)
    rw [hrel]
    split
    · rename_i heq
      rw [heq] at herr hfs
      simp only at herr
      cases herr
      exact ⟨rfl, hfs⟩
    · rename_i heq
      rw [heq] at herr
      cases herr

theorem patchGame.relocate_missing (env : Env) (w : World)
    (hno : w.fs (str "tmp/game(d.errexe.xyz).nds") = none)
    (h : w.fs (str "game(d.errexe.xyz).nds") = none) :
    (patchGame.relocate env w).1 = some (str "Patching failed: Patched file not found") ∧
      (patchGame.relocate env w).2.fs = w.fs := by
  unfold patchGame.relocate os.Stat
  simp [resultPaths.1, resultPaths.2.1, hno, h, World.emit]

theorem patchGame_of_relocate (env : Env) (w : World) (ndsFile : GoString)
    (hmk : (os.MkdirAll env (w.emit (.call .patchGame)) (str "./tmp")).1 = none)
    (hcp : (copyFile env (os.MkdirAll env (w.emit (.call .patchGame)) (str "./tmp")).2
      ndsFile tmpPath).1 = none)
    (hrun : (exec.Run env
      (copyFile env (os.MkdirAll env (w.emit (.call .patchGame)) (str "./tmp")).2
        ndsFile tmpPath).2
      [str "wine", str "./patcher/helper.exe", str "-d", str "d.errexe.xyz", tmpPath]).1 =
        none) :
    (patchGame env w ndsFile).1 =
        (patchGame.relocate env (patchGame.afterRun env w ndsFile)).1 ∧
      (patchGame env w ndsFile).2.fs =
        (patchGame.relocate env (patchGame.afterRun env w ndsFile)).2.fs := by
  rw [patchGame_after_run env w ndsFile hmk hcp hrun]
  split
  · rename_i heq
    rw [heq]
    exact ⟨rfl, rfl⟩
  · rename_i heq
    rw [heq]
    exact ⟨rfl, successBanner_fs _ _⟩

/-- C8, amended: after the helper subprocess has exited successfully, the
result `game(d.errexe.xyz).nds` is looked for under `./tmp` first and in the
current directory second.  If something is found under `./tmp` and the rename
to `./output.nds` succeeds, `patchGame` succeeds, `./output.nds` is exactly
what was found (whatever it was before), the copy in the current directory is
untouched and the path under `./tmp` is gone; if it is found only in the
current directory and the rename succeeds, `./output.nds` is exactly what was
found there.  If the rename fails, `patchGame` returns the error
`Error moving patched file: ...` and the file system is as the helper left it.
If the result is in neither place, `patchGame` returns
`Patching failed: Patched file not found` and the file system, `./output.nds`
included, is as the helper left it. -/
theorem patchGame_result (env : Env) (w : World) (ndsFile : GoString)
    (hmk : (os.MkdirAll env (w.emit (.call .patchGame)) (str "./tmp")).1 = none)
    (hcp : (copyFile env (os.MkdirAll env (w.emit (.call .patchGame)) (str "./tmp")).2
      ndsFile tmpPath).1 = none)
    (hrun : (exec.Run env
      (copyFile env (os.MkdirAll env (w.emit (.call .patchGame)) (str "./tmp")).2
        ndsFile tmpPath).2
      [str "wine", str "./patcher/helper.exe", str "-d", str "d.errexe.xyz", tmpPath]).1 =
        none) :
    (∀ node,
      (patchGame.afterRun env w ndsFile).fs (filepath.Clean (str "./tmp/" ++ outputFile)) =
        some node →
      ((os.Rename env (patchGame.afterRun env w ndsFile) (str "./tmp/" ++ outputFile)
          (str "./output.nds")).1 = none →
        (patchGame env w ndsFile).1 = none ∧
        (patchGame env w ndsFile).2.fs (filepath.Clean (str "./output.nds")) = some node ∧
        (patchGame env w ndsFile).2.fs (filepath.Clean (str "./" ++ outputFile)) =
          (patchGame.afterRun env w ndsFile).fs (filepath.Clean (str "./" ++ outputFile)) ∧
        (patchGame env w ndsFile).2.fs (filepath.Clean (str "./tmp/" ++ outputFile)) = none) ∧
      (∀ err,
        (os.Rename env (patchGame.afterRun env w ndsFile) (str "./tmp/" ++ outputFile)
          (str "./output.nds")).1 = some err →
        (patchGame env w ndsFile).1 = some (fmt.Errorf "Error moving patched file: " err) ∧
        (patchGame env w ndsFile).2.fs = (patchGame.afterRun env w ndsFile).fs)) ∧
    ((patchGame.afterRun env w ndsFile).fs (filepath.Clean (str "./tmp/" ++ outputFile)) =
        none →
      ∀ node,
        (patchGame.afterRun env w ndsFile).fs (filepath.Clean (str "./" ++ outputFile)) =
          some node →
        ((os.Rename env (patchGame.afterRun env w ndsFile) (str "./" ++ outputFile)
            (str "./output.nds")).1 = none →
          (patchGame env w ndsFile).1 = none ∧
          (patchGame env w ndsFile).2.fs (filepath.Clean (str "./output.nds")) = some node ∧
          (patchGame env w ndsFile).2.fs (filepath.Clean (str "./" ++ outputFile)) = none) ∧
        (∀ err,
          (os.Rename env (patchGame.afterRun env w ndsFile) (str "./" ++ outputFile)
            (str "./output.nds")).1 = some err →
          (patchGame env w ndsFile).1 = some (fmt.Errorf "Error moving patched file: " err) ∧
          (patchGame env w ndsFile).2.fs = (patchGame.afterRun env w ndsFile).fs)) ∧
    ((patchGame.afterRun env w ndsFile).fs (filepath.Clean (str "./tmp/" ++ outputFile)) =
        none →
      (patchGame.afterRun env w ndsFile).fs (filepath.Clean (str "./" ++ outputFile)) =
        none →
      (patchGame env w ndsFile).1 = some (str "Patching failed: Patched file not found") ∧
      (patchGame env w ndsFile).2.fs = (patchGame.afterRun env w ndsFile).fs) := by
  obtain ⟨h1, h2⟩ := patchGame_of_relocate env w ndsFile hmk hcp hrun
  rw [h1, h2, resultPaths.1, resultPaths.2.1, resultPaths.2.2]
  refine ⟨?_, ?_, ?_⟩
  · intro node hnode
    obtain ⟨hok, hbad⟩ := patchGame.relocate_tmp env _ node hnode
    refine ⟨fun hren => ?_, hbad⟩
    obtain ⟨hr, hfs⟩ := hok hren
    obtain ⟨m1, m2, m3⟩ := FS.move_from_tmp (patchGame.afterRun env w ndsFile).fs
    rw [hfs]
    exact ⟨hr, m1.trans hnode, m2, m3⟩
  · intro hno node hnode
    obtain ⟨hok, hbad⟩ := patchGame.relocate_cwd env _ node hno hnode
    refine ⟨fun hren => ?_, hbad⟩
    obtain ⟨hr, hfs⟩ := hok hren
    obtain ⟨m1, m2⟩ := FS.move_from_cwd (patchGame.afterRun env w ndsFile).fs
    rw [hfs]
    exact ⟨hr, m1.trans hnode, m2⟩
  · intro hno hno2
    exact patchGame.relocate_missing env _ hno hno2

/-- C8, amended, with a helper that writes under `./tmp` (an older output and a
stale result exist), with a helper that writes in the current directory, and
with a helper that writes nothing. -/
theorem patchGame_result_witness :
    ((patchGame Env.helperTmp World.ready (str "b.nds")).1 = none ∧
      (patchGame Env.helperTmp World.ready (str "b.nds")).2.fs
        (filepath.Clean (str "./output.nds")) = some (.file (str "patched")) ∧
      (patchGame Env.helperTmp World.ready (str "b.nds")).2.fs
          (filepath.Clean (str "./" ++ outputFile)) =
        (patchGame.afterRun Env.helperTmp World.ready (str "b.nds")).fs
          (filepath.Clean (str "./" ++ outputFile)) ∧
      (patchGame Env.helperTmp World.ready (str "b.nds")).2.fs
        (filepath.Clean (str "./tmp/" ++ outputFile)) = none) ∧
    ((patchGame Env.helperCwd World.fresh (str "b.nds")).1 = none ∧
      (patchGame Env.helperCwd World.fresh (str "b.nds")).2.fs
        (filepath.Clean (str "./output.nds")) = some (.file (str "patched")) ∧
      (patchGame Env.helperCwd World.fresh (str "b.nds")).2.fs
        (filepath.Clean (str "./" ++ outputFile)) = none) ∧
    ((patchGame Env.helperSilent World.fresh (str "b.nds")).1 =
        some (str "Patching failed: Patched file not found") ∧
      (patchGame Env.helperSilent World.fresh (str "b.nds")).2.fs =
        (patchGame.afterRun Env.helperSilent World.fresh (str "b.nds")).fs) :=
  ⟨((patchGame_result Env.helperTmp World.ready (str "b.nds") (by decide) (by decide)
      (by decide)).1 (.file (str "patched")) (by decide)).1 (by decide),
   (((patchGame_result Env.helperCwd World.fresh (str "b.nds") (by decide) (by decide)
      (by decide)).2.1 (by decide)) (.file (str "patched")) (by decide)).1 (by decide),
   (patchGame_result Env.helperSilent World.fresh (str "b.nds") (by decide) (by decide)
      (by decide)).2.2 (by decide) (by decide)⟩

/-- C8 as stated fails when `./output.nds` is a directory: the helper exits
successfully and its result exists under `./tmp`, yet `patchGame` returns a
rename error, `./output.nds` is still the directory and not the result, and
the result stays under `./tmp`. -/
theorem patchGame_rename_fails :
    (exec.Run Env.helperTmp
        (copyFile Env.helperTmp
          (os.MkdirAll Env.helperTmp (World.blocked.emit (.call .patchGame)) (str "./tmp")).2
          (str "b.nds") tmpPath).2
        [str "wine", str "./patcher/helper.exe", str "-d", str "d.errexe.xyz", tmpPath]).1 =
        none ∧
      (patchGame.afterRun Env.helperTmp World.blocked (str "b.nds")).fs
        (filepath.Clean (str "./tmp/" ++ outputFile)) = some (.file (str "patched")) ∧
      (patchGame Env.helperTmp World.blocked (str "b.nds")).1 =
        some (str "Error moving patched file: file exists") ∧
      (patchGame Env.helperTmp World.blocked (str "b.nds")).2.fs
        (filepath.Clean (str "./output.nds")) = some .dir ∧
      (patchGame Env.helperTmp World.blocked (str "b.nds")).2.fs
        (filepath.Clean (str "./tmp/" ++ outputFile)) = some (.file (str "patched")) := by
  decide

end Patcher
